import Mathlib

/-!
Verification of the cgltf glTF 2.0 loader (single-header C library, cgltf.h)
against its natural-language specification.

The development shallowly embeds the relevant C functions as executable Lean
definitions and proves the specified properties about them.  Conventions:

* Machine integers are modelled as `Nat` / `Int`; `cgltf_size` (`size_t`)
  arithmetic is taken modulo `2 ^ 64` wherever wrap-around matters.
* Byte buffers are `Array Nat` with each entry a byte value; reads use
  `Array.getD` (out-of-range reads yield 0, which only happens on inputs the
  C code would not index either, or where the C reads unspecified memory).
* `float` values are modelled as exact rationals (`ℚ`): IEEE-754 bit
  patterns are decoded exactly, and arithmetic on them is exact rational
  arithmetic.  The concrete values proved below (for example 65535 / 65535)
  are exact in binary32 as well, so no rounding gap arises in any theorem.
* Fallible code returns `Option` / a result enum; C functions that mutate
  through pointers are modelled as functions returning the written data.
-/

deriving instance DecidableEq for Except

/-- Result codes of the library (cgltf_result). -/
inductive CgltfResult where
  | success
  | data_too_short
  | unknown_format
  | invalid_json
  | invalid_gltf
  | invalid_options
  | file_not_found
  | io_error
  | out_of_memory
deriving DecidableEq, Inhabited

/-- File type selector (cgltf_file_type): `invalid` is auto-detect. -/
inductive CgltfFileType where
  | invalid
  | gltf
  | glb
deriving DecidableEq, Inhabited

/-- Accessor element type (cgltf_type). -/
inductive CgltfType where
  | invalid
  | scalar
  | vec2
  | vec3
  | vec4
  | mat2
  | mat3
  | mat4
deriving DecidableEq, Inhabited, Fintype

/-- Accessor component type (cgltf_component_type).  `r_8` is signed byte,
`r_8u` unsigned byte, and so on; `r_32f` is binary32 float. -/
inductive CgltfComponentType where
  | invalid
  | r_8
  | r_8u
  | r_16
  | r_16u
  | r_32u
  | r_32f
deriving DecidableEq, Inhabited, Fintype

/-- Number of components of an element type (cgltf_num_components). -/
def cgltf_num_components : CgltfType → Nat
  | .vec2 => 2
  | .vec3 => 3
  | .vec4 => 4
  | .mat2 => 4
  | .mat3 => 9
  | .mat4 => 16
  | .invalid => 1
  | .scalar => 1

/-- Byte size of one component (cgltf_component_size). -/
def cgltf_component_size : CgltfComponentType → Nat
  | .r_8 => 1
  | .r_8u => 1
  | .r_16 => 2
  | .r_16u => 2
  | .r_32u => 4
  | .r_32f => 4
  | .invalid => 0

/-- Element byte size (cgltf_calc_size), with the matrix alignment special
cases exactly as in the source. -/
def cgltf_calc_size (ty : CgltfType) (ct : CgltfComponentType) : Nat :=
  let cs := cgltf_component_size ct
  if ty = .mat2 ∧ cs = 1 then 8 * cs
  else if ty = .mat3 ∧ (cs = 1 ∨ cs = 2) then 12 * cs
  else cs * cgltf_num_components ty

/-- Modulus of size_t (cgltf_size) arithmetic: 2 to the 64. -/
def SizeTMod : Nat := 18446744073709551616

/-- Decrement of a cgltf_size value, with unsigned wrap-around at zero
(assumes the argument is a valid size_t value, below `SizeTMod`). -/
def cgltf_size_sub1 (c : Nat) : Nat := (c + (SizeTMod - 1)) % SizeTMod

/-- Little-endian unsigned byte read. -/
def readU8 (buf : Array Nat) (p : Nat) : Nat := buf.getD p 0

/-- Little-endian unsigned 16-bit read. -/
def readU16 (buf : Array Nat) (p : Nat) : Nat :=
  readU8 buf p + 256 * readU8 buf (p + 1)

/-- Little-endian unsigned 32-bit read. -/
def readU32 (buf : Array Nat) (p : Nat) : Nat :=
  readU16 buf p + 65536 * readU16 buf (p + 2)

/-- Signed 8-bit read (two-complement). -/
def readI8 (buf : Array Nat) (p : Nat) : Int :=
  let v := readU8 buf p
  if v < 128 then (v : Int) else (v : Int) - 256

/-- Signed 16-bit little-endian read (two-complement). -/
def readI16 (buf : Array Nat) (p : Nat) : Int :=
  let v := readU16 buf p
  if v < 32768 then (v : Int) else (v : Int) - 65536

/-- Conversion of a signed integer to size_t (C integer conversion,
reduction modulo 2 to the 64). -/
def intToSizeT (z : Int) : Nat := (z % (SizeTMod : Int)).toNat

/-- Exact rational value of an IEEE-754 binary32 bit pattern.  Infinities
and NaNs (exponent 255) have no rational value and are mapped to 0; none of
the verified properties touches them. -/
def decodeF32 (u : Nat) : ℚ :=
  let sign : ℚ := if u / 2 ^ 31 % 2 = 1 then -1 else 1
  let ex : Nat := u / 2 ^ 23 % 256
  let frac : Nat := u % 2 ^ 23
  if ex = 255 then 0
  else if ex = 0 then sign * (frac : ℚ) / 2 ^ 149
  else sign * ((2 ^ 23 + frac : ℕ) : ℚ) * (2 : ℚ) ^ ((ex : ℤ) - 150)

/-- Conversion of a float to size_t: truncation toward zero.  A negative or
out-of-range argument is undefined behaviour in C; the model truncates
negatives to 0. -/
def floatToSizeT (q : ℚ) : Nat := (⌊q⌋).toNat

/-- cgltf_component_read_index: reads one component and converts it to a
size_t value.  Signed negative components wrap around modulo 2 to the 64,
exactly as the C conversion from a signed integer to size_t does. -/
def cgltf_component_read_index (buf : Array Nat) (p : Nat) :
    CgltfComponentType → Nat
  | .r_16 => intToSizeT (readI16 buf p)
  | .r_16u => readU16 buf p
  | .r_32u => readU32 buf p
  | .r_32f => floatToSizeT (decodeF32 (readU32 buf p))
  | .r_8 => intToSizeT (readI8 buf p)
  | .r_8u => readU8 buf p
  | .invalid => readU8 buf p

/-- cgltf_component_read_float: float components verbatim; normalized
integers divided by UINT_MAX, SHRT_MAX, USHRT_MAX, SCHAR_MAX or CHAR_MAX
(127) respectively; otherwise the integer is converted through the size_t
path and cast to float. -/
def cgltf_component_read_float (buf : Array Nat) (p : Nat)
    (ct : CgltfComponentType) (normalized : Bool) : ℚ :=
  if ct = .r_32f then decodeF32 (readU32 buf p)
  else if normalized then
    match ct with
    | .r_32u => (readU32 buf p : ℚ) / 4294967295
    | .r_16 => (readI16 buf p : ℚ) / 32767
    | .r_16u => (readU16 buf p : ℚ) / 65535
    | .r_8 => (readI8 buf p : ℚ) / 127
    | _ => (readU8 buf p : ℚ) / 127
  else (cgltf_component_read_index buf p ct : ℚ)

/-- Buffer view as seen by the accessor readers: its byte offset in the
buffer and the loaded buffer bytes (buffer data assumed loaded, as the
reader contract requires). -/
structure ReadBufferView where
  offset : Nat
  data : Array Nat
deriving DecidableEq, Inhabited

/-- Accessor fields consulted by cgltf_accessor_read_float. -/
structure ReadAccessor where
  is_sparse : Bool
  buffer_view : Option ReadBufferView
  offset : Nat
  stride : Nat
  ty : CgltfType
  component_type : CgltfComponentType
  normalized : Bool
deriving DecidableEq, Inhabited

/-- cgltf_element_read_float: the C function writes num_components floats
into the out array and returns 1, or returns 0 when the out capacity (the
parameter the source calls element_size) is smaller than num_components.
The model returns the written floats as a list (`none` = returned 0).  The
three matrix special cases read components at the aligned offsets written
out literally in the source. -/
def cgltf_element_read_float (buf : Array Nat) (e : Nat) (ty : CgltfType)
    (ct : CgltfComponentType) (normalized : Bool) (out_capacity : Nat) :
    Option (List ℚ) :=
  let n := cgltf_num_components ty
  if out_capacity < n then none
  else
    let cs := cgltf_component_size ct
    let r := fun o => cgltf_component_read_float buf o ct normalized
    if ty = .mat2 ∧ cs = 1 then
      some [r e, r (e + 1), r (e + 4), r (e + 5)]
    else if ty = .mat3 ∧ cs = 1 then
      some [r e, r (e + 1), r (e + 2), r (e + 4), r (e + 5), r (e + 6),
        r (e + 8), r (e + 9), r (e + 10)]
    else if ty = .mat3 ∧ cs = 2 then
      some [r e, r (e + 2), r (e + 4), r (e + 8), r (e + 10), r (e + 12),
        r (e + 16), r (e + 18), r (e + 20)]
    else some ((List.range n).map (fun i => r (e + cs * i)))

/-- cgltf_accessor_read_float: fails on sparse accessors and on accessors
without a buffer view, otherwise reads the element at
view.offset + accessor.offset + stride * index. -/
def cgltf_accessor_read_float (acc : ReadAccessor) (index : Nat)
    (out_capacity : Nat) : Option (List ℚ) :=
  if acc.is_sparse then none
  else
    match acc.buffer_view with
    | none => none
    | some bv =>
      cgltf_element_read_float bv.data
        (acc.offset + bv.offset + acc.stride * index) acc.ty
        acc.component_type acc.normalized out_capacity

/-- Modelled from the spec (section 4.5): the component byte offsets the
matrix alignment rules prescribe, namely 0,1,4,5 for mat2 with 1-byte
components, 0,1,2,4,5,6,8,9,10 for mat3 with 1-byte components,
0,2,4,8,10,12,16,18,20 for mat3 with 2-byte components, and contiguous
component_size strides otherwise. -/
def specComponentOffsets (ty : CgltfType) (ct : CgltfComponentType) :
    List Nat :=
  let cs := cgltf_component_size ct
  if ty = .mat2 ∧ cs = 1 then [0, 1, 4, 5]
  else if ty = .mat3 ∧ cs = 1 then [0, 1, 2, 4, 5, 6, 8, 9, 10]
  else if ty = .mat3 ∧ cs = 2 then [0, 2, 4, 8, 10, 12, 16, 18, 20]
  else (List.range (cgltf_num_components ty)).map (fun i => cs * i)

/-! ## Validator (cgltf_validate)

The validator walks the already linked graph.  Pointers to buffers,
buffer views and accessors are embedded by value here: the validator only
reads through them, so aliasing is immaterial. -/

/-- Buffer as the validator sees it: its size and optionally loaded data. -/
structure VBuffer where
  size : Nat
  data : Option (Array Nat)
deriving DecidableEq, Inhabited

/-- Buffer view fields read by the validator. -/
structure VBufferView where
  offset : Nat
  size : Nat
  buffer : Option VBuffer
deriving DecidableEq, Inhabited

/-- Sparse block of an accessor (cgltf_accessor_sparse fields read by the
validator). -/
structure VSparse where
  count : Nat
  indices_byte_offset : Nat
  values_byte_offset : Nat
  indices_component_type : CgltfComponentType
  indices_buffer_view : VBufferView
  values_buffer_view : VBufferView
deriving DecidableEq, Inhabited

/-- Accessor fields read by the validator. -/
structure VAccessor where
  offset : Nat
  stride : Nat
  count : Nat
  ty : CgltfType
  component_type : CgltfComponentType
  buffer_view : Option VBufferView
  is_sparse : Bool
  sparse : VSparse
deriving DecidableEq, Inhabited

/-- cgltf_calc_index_bound: maximum index stored in the given range of the
index buffer (0 for non-unsigned component types).  The C code dereferences
the buffer data; on an unloaded buffer the caller guards the call. -/
def cgltf_calc_index_bound (bv : VBufferView) (offset : Nat)
    (ct : CgltfComponentType) (count : Nat) : Nat :=
  let dataArr := ((bv.buffer.map VBuffer.data).join).getD #[]
  let base := offset + bv.offset
  match ct with
  | .r_8u =>
    (List.range count).foldl (fun bound i => max bound (readU8 dataArr (base + i))) 0
  | .r_16u =>
    (List.range count).foldl (fun bound i => max bound (readU16 dataArr (base + 2 * i))) 0
  | .r_32u =>
    (List.range count).foldl (fun bound i => max bound (readU32 dataArr (base + 4 * i))) 0
  | _ => 0

/-- The per-accessor checks of cgltf_validate, in source order: buffer-view
bounds first (with size_t wrap-around on count - 1), then the sparse
checks.  Returns the first error, `none` when the accessor passes. -/
def checkAccessor (a : VAccessor) : Option CgltfResult :=
  let esize := cgltf_calc_size a.ty a.component_type
  let bounds : Option CgltfResult :=
    match a.buffer_view with
    | some v =>
      let req := (a.offset + a.stride * cgltf_size_sub1 a.count + esize) % SizeTMod
      if v.size < req then some .data_too_short else none
    | none => none
  match bounds with
  | some r => some r
  | none =>
    if a.is_sparse then
      let sp := a.sparse
      let ics := cgltf_calc_size .scalar sp.indices_component_type
      let ireq := (sp.indices_byte_offset + ics * sp.count) % SizeTMod
      let vreq := (sp.values_byte_offset + esize * sp.count) % SizeTMod
      if sp.indices_buffer_view.size < ireq ∨ sp.values_buffer_view.size < vreq then
        some .data_too_short
      else if sp.indices_component_type ≠ .r_8u ∧ sp.indices_component_type ≠ .r_16u ∧
          sp.indices_component_type ≠ .r_32u then
        some .invalid_gltf
      else if ((sp.indices_buffer_view.buffer.map VBuffer.data).join).isSome then
        if a.count ≤ cgltf_calc_index_bound sp.indices_buffer_view
            sp.indices_byte_offset sp.indices_component_type sp.count then
          some .data_too_short
        else none
      else none
    else none

/-- Buffer view check of cgltf_validate: offset + size must fit in the
buffer (the C code skips views whose buffer pointer is null). -/
def checkBufferView (v : VBufferView) : Option CgltfResult :=
  match v.buffer with
  | some b =>
    if b.size < (v.offset + v.size) % SizeTMod then some .data_too_short else none
  | none => none

/-- Attribute of a primitive (name dropped: the validator only reads the
accessor). -/
structure VAttribute where
  data : VAccessor
deriving DecidableEq, Inhabited

/-- Primitive fields read by the validator. -/
structure VPrimitive where
  attributes : List VAttribute
  targets : List (List VAttribute)
  indices : Option VAccessor
deriving DecidableEq, Inhabited

/-- Mesh fields read by the validator (`has_weights` models a non-null
weights pointer). -/
structure VMesh where
  primitives : List VPrimitive
  has_weights : Bool
  weights_count : Nat
deriving DecidableEq, Inhabited

/-- Node fields read by the validator (`has_weights` models a non-null
weights pointer; the mesh reference is embedded by value). -/
structure VNode where
  has_weights : Bool
  weights_count : Nat
  mesh : Option VMesh
deriving DecidableEq, Inhabited

/-- Per-primitive checks of cgltf_validate, given the morph-target count of
the first primitive of the mesh: uniform target count, uniform attribute
accessor count, morph-target attribute count, index component type, and
index bound against the first attribute count. -/
def checkPrimitive (targets0 : Nat) (p : VPrimitive) : Option CgltfResult :=
  if p.targets.length ≠ targets0 then some .invalid_gltf
  else
    match p.attributes with
    | [] => none
    | a0 :: _ =>
      let first := a0.data
      match p.attributes.findSome? (fun att =>
          if att.data.count ≠ first.count then some CgltfResult.invalid_gltf else none) with
      | some r => some r
      | none =>
        match p.targets.findSome? (fun t => t.findSome? (fun att =>
            if att.data.count ≠ first.count then some CgltfResult.invalid_gltf else none)) with
        | some r => some r
        | none =>
          match p.indices with
          | none => none
          | some ind =>
            if ind.component_type ≠ .r_8u ∧ ind.component_type ≠ .r_16u ∧
                ind.component_type ≠ .r_32u then
              some .invalid_gltf
            else
              match ind.buffer_view with
              | none => none
              | some ibv =>
                if ((ibv.buffer.map VBuffer.data).join).isSome then
                  if first.count ≤ cgltf_calc_index_bound ibv ind.offset
                      ind.component_type ind.count then
                    some .data_too_short
                  else none
                else none

/-- Per-mesh checks of cgltf_validate. -/
def checkMesh (m : VMesh) : Option CgltfResult :=
  let targets0 := match m.primitives with
    | [] => 0
    | p0 :: _ => p0.targets.length
  let w : Option CgltfResult :=
    if m.has_weights ∧ m.primitives ≠ [] ∧ targets0 ≠ m.weights_count then
      some .invalid_gltf
    else none
  match w with
  | some r => some r
  | none => m.primitives.findSome? (checkPrimitive targets0)

/-- Per-node check of cgltf_validate: weight count against the mesh
morph-target count. -/
def checkNode (n : VNode) : Option CgltfResult :=
  match n.mesh with
  | some m =>
    if n.has_weights then
      match m.primitives with
      | [] => none
      | p0 :: _ => if p0.targets.length ≠ n.weights_count then some .invalid_gltf else none
    else none
  | none => none

/-- The document as the validator sees it. -/
structure VData where
  accessors : List VAccessor
  buffer_views : List VBufferView
  meshes : List VMesh
  nodes : List VNode
deriving DecidableEq, Inhabited

/-- cgltf_validate: runs the four check loops in source order and returns
the first error, or success. -/
def cgltf_validate (d : VData) : CgltfResult :=
  match d.accessors.findSome? checkAccessor with
  | some r => r
  | none =>
    match d.buffer_views.findSome? checkBufferView with
    | some r => r
    | none =>
      match d.meshes.findSome? checkMesh with
      | some r => r
      | none =>
        match d.nodes.findSome? checkNode with
        | some r => r
        | none => .success

/-! ## Extras retrieval (cgltf_copy_extras_json) -/

/-- Extras: byte offsets into the preserved JSON text. -/
structure CgltfExtras where
  start_offset : Nat
  end_offset : Nat
deriving DecidableEq, Inhabited

/-- Byte writes performed by strncpy(dest, src + b, n): always n writes at
destination indices 0..n-1; once a NUL byte is hit in the source the
remainder is zero filled. -/
def strncpyWrites (src : Array Nat) (b n : Nat) : List (Nat × Nat) :=
  (List.range n).map (fun i =>
    (i, if (List.range i).any (fun j => src.getD (b + j) 0 == 0) then 0
        else src.getD (b + i) 0))

/-- cgltf_copy_extras_json.  `dest` indicates a non-null destination
pointer; the out-parameter dest_size is always passed (a null dest_size
with null dest returns invalid_options in C and is outside the claim).
Returns the result code, the final value stored in dest_size, and the list
of byte writes (destination index, value) performed on dest.  Note the
source condition dest_size + 1 < json_size selecting the truncating branch,
and that the non-truncating branch writes json_size bytes plus a NUL at
index json_size. -/
def cgltf_copy_extras_json (json : Array Nat) (ex : CgltfExtras)
    (dest : Bool) (dest_size : Nat) : CgltfResult × Nat × List (Nat × Nat) :=
  let json_size := ex.end_offset - ex.start_offset
  if dest = false then (.success, json_size + 1, [])
  else if dest_size + 1 < json_size then
    (.success, dest_size,
      strncpyWrites json ex.start_offset (cgltf_size_sub1 dest_size) ++
        [(cgltf_size_sub1 dest_size, 0)])
  else
    (.success, dest_size,
      strncpyWrites json ex.start_offset json_size ++ [(json_size, 0)])

/-! ## Reference fixup (cgltf_fixup_pointers)

During decoding every reference field holds the integer index + 1 (0 means
absent), disguised in the pointer slot.  The fixup pass converts each
encoded value to a resolved reference.  The model keeps encoded references
as `Nat` in the Pre structures and produces Post structures whose resolved
references are array indices (`Option Nat` for optional edges).  Entity
arrays the fixup never dereferences (cameras, lights, samplers) appear only
through their lengths. -/

/-- CGLTF_PTRFIXUP: optional reference. Zero stays absent; a nonzero
encoding must be at most the array length, else error (`none`). -/
def cgltf_ptrfixup (v count : Nat) : Option (Option Nat) :=
  if v ≠ 0 then (if v > count then none else some (some (v - 1))) else some none

/-- CGLTF_PTRFIXUP_REQ: required reference. The encoding must be nonzero
and at most the array length, else error (`none`). -/
def cgltf_ptrfixup_req (v count : Nat) : Option Nat :=
  if v = 0 ∨ v > count then none else some (v - 1)

/-- List traversal mirroring the C for loops with early error return. -/
def optMapM {α β : Type} (f : α → Option β) : List α → Option (List β)
  | [] => some []
  | a :: l =>
    match f a with
    | none => none
    | some b =>
      match optMapM f l with
      | none => none
      | some bs => some (b :: bs)

/-- Primitive before fixup: encoded accessor and material references. -/
structure PrePrimitive where
  indices : Nat
  material : Nat
  attributes : List Nat
  targets : List (List Nat)
deriving DecidableEq, Inhabited

/-- Mesh before fixup. -/
structure PreMesh where
  primitives : List PrePrimitive
deriving DecidableEq, Inhabited

/-- Accessor fields touched by fixup: encoded buffer-view references,
stride and the element geometry used for stride derivation. -/
structure PreAccessor where
  buffer_view : Nat
  is_sparse : Bool
  sparse_indices_buffer_view : Nat
  sparse_values_buffer_view : Nat
  stride : Nat
  ty : CgltfType
  component_type : CgltfComponentType
deriving DecidableEq, Inhabited

/-- Texture before fixup. -/
structure PreTexture where
  image : Nat
  sampler : Nat
deriving DecidableEq, Inhabited

/-- Image before fixup. -/
structure PreImage where
  buffer_view : Nat
deriving DecidableEq, Inhabited

/-- Material before fixup: the seven texture-view texture references. -/
structure PreMaterial where
  normal_texture : Nat
  emissive_texture : Nat
  occlusion_texture : Nat
  pbr_mr_base_color_texture : Nat
  pbr_mr_metallic_roughness_texture : Nat
  pbr_sg_diffuse_texture : Nat
  pbr_sg_specular_glossiness_texture : Nat
deriving DecidableEq, Inhabited

/-- Buffer view before fixup. -/
structure PreBufferView where
  buffer : Nat
  stride : Nat
deriving DecidableEq, Inhabited

/-- Skin before fixup. -/
structure PreSkin where
  joints : List Nat
  skeleton : Nat
  inverse_bind_matrices : Nat
deriving DecidableEq, Inhabited

/-- Node before fixup; `parent` is the parent pointer field, null (none)
as the decoder zero-initialises it. -/
structure PreNode where
  children : List Nat
  mesh : Nat
  skin : Nat
  camera : Nat
  light : Nat
  parent : Option Nat
deriving DecidableEq, Inhabited

/-- Scene before fixup. -/
structure PreScene where
  nodes : List Nat
deriving DecidableEq, Inhabited

/-- Animation sampler before fixup. -/
structure PreAnimationSampler where
  input : Nat
  output : Nat
deriving DecidableEq, Inhabited

/-- Animation channel before fixup. -/
structure PreAnimationChannel where
  sampler : Nat
  target_node : Nat
deriving DecidableEq, Inhabited

/-- Animation before fixup. -/
structure PreAnimation where
  samplers : List PreAnimationSampler
  channels : List PreAnimationChannel
deriving DecidableEq, Inhabited

/-- Decoded document as handed to cgltf_fixup_pointers. -/
structure PreData where
  meshes : List PreMesh
  accessors : List PreAccessor
  textures : List PreTexture
  images : List PreImage
  materials : List PreMaterial
  buffer_views : List PreBufferView
  skins : List PreSkin
  nodes : List PreNode
  scenes : List PreScene
  animations : List PreAnimation
  scene : Nat
  buffers_count : Nat
  cameras_count : Nat
  lights_count : Nat
  samplers_count : Nat
deriving DecidableEq, Inhabited

/-- Primitive after fixup: resolved array indices. -/
structure PostPrimitive where
  indices : Option Nat
  material : Option Nat
  attributes : List Nat
  targets : List (List Nat)
deriving DecidableEq, Inhabited

/-- Mesh after fixup. -/
structure PostMesh where
  primitives : List PostPrimitive
deriving DecidableEq, Inhabited

/-- Accessor after fixup: resolved view references and propagated stride.
When the accessor is not sparse the C code leaves the raw sparse encodings
untouched and never reads them; the model stores `none` there. -/
structure PostAccessor where
  buffer_view : Option Nat
  sparse_indices_buffer_view : Option Nat
  sparse_values_buffer_view : Option Nat
  stride : Nat
deriving DecidableEq, Inhabited

/-- Texture after fixup. -/
structure PostTexture where
  image : Option Nat
  sampler : Option Nat
deriving DecidableEq, Inhabited

/-- Material after fixup. -/
structure PostMaterial where
  normal_texture : Option Nat
  emissive_texture : Option Nat
  occlusion_texture : Option Nat
  pbr_mr_base_color_texture : Option Nat
  pbr_mr_metallic_roughness_texture : Option Nat
  pbr_sg_diffuse_texture : Option Nat
  pbr_sg_specular_glossiness_texture : Option Nat
deriving DecidableEq, Inhabited

/-- Buffer view after fixup. -/
structure PostBufferView where
  buffer : Nat
  stride : Nat
deriving DecidableEq, Inhabited

/-- Skin after fixup. -/
structure PostSkin where
  joints : List Nat
  skeleton : Option Nat
  inverse_bind_matrices : Option Nat
deriving DecidableEq, Inhabited

/-- Node after fixup, except for the parent pointer: the parent fields of
the whole node array are kept side by side in `PostData.node_parents`,
mirroring the in-place mutation of the C node array. -/
structure PostNodeCore where
  children : List Nat
  mesh : Option Nat
  skin : Option Nat
  camera : Option Nat
  light : Option Nat
deriving DecidableEq, Inhabited

/-- Scene after fixup. -/
structure PostScene where
  nodes : List Nat
deriving DecidableEq, Inhabited

/-- Animation channel after fixup. -/
structure PostAnimationChannel where
  sampler : Nat
  target_node : Option Nat
deriving DecidableEq, Inhabited

/-- Animation after fixup (samplers keep required accessor indices). -/
structure PostAnimation where
  samplers : List (Nat × Nat)
  channels : List PostAnimationChannel
deriving DecidableEq, Inhabited

/-- Document after fixup. -/
structure PostData where
  meshes : List PostMesh
  accessors : List PostAccessor
  textures : List PostTexture
  images : List (Option Nat)
  materials : List PostMaterial
  buffer_views : List PostBufferView
  skins : List PostSkin
  nodes : List PostNodeCore
  node_parents : List (Option Nat)
  scenes : List PostScene
  animations : List PostAnimation
  scene : Option Nat
deriving DecidableEq, Inhabited

/-- Fixup of one primitive: optional indices and material, required
attribute and morph-target accessors. -/
def fixupPrimitive (acount mcount : Nat) (p : PrePrimitive) :
    Option PostPrimitive :=
  match cgltf_ptrfixup p.indices acount with
  | none => none
  | some ind =>
    match cgltf_ptrfixup p.material mcount with
    | none => none
    | some mat =>
      match optMapM (fun v => cgltf_ptrfixup_req v acount) p.attributes with
      | none => none
      | some attrs =>
        match optMapM (fun t => optMapM (fun v => cgltf_ptrfixup_req v acount) t)
            p.targets with
        | none => none
        | some tgs => some ⟨ind, mat, attrs, tgs⟩

/-- Fixup of one accessor: optional buffer view, required sparse views when
sparse, then stride propagation (copy the view stride, and when the
resulting stride is zero derive it from the element geometry). -/
def fixupAccessor (bvs : List PreBufferView) (a : PreAccessor) :
    Option PostAccessor :=
  match cgltf_ptrfixup a.buffer_view bvs.length with
  | none => none
  | some bv =>
    let sres : Option (Option Nat × Option Nat) :=
      if a.is_sparse then
        match cgltf_ptrfixup_req a.sparse_indices_buffer_view bvs.length with
        | none => none
        | some si =>
          match cgltf_ptrfixup_req a.sparse_values_buffer_view bvs.length with
          | none => none
          | some sv => some (some si, some sv)
      else some (none, none)
    match sres with
    | none => none
    | some (si, sv) =>
      let stride1 := match bv with
        | some idx => (bvs.getD idx default).stride
        | none => a.stride
      let stride2 := if stride1 = 0 then cgltf_calc_size a.ty a.component_type
        else stride1
      some ⟨bv, si, sv, stride2⟩

/-- Fixup of one texture. -/
def fixupTexture (icount scount : Nat) (t : PreTexture) : Option PostTexture :=
  match cgltf_ptrfixup t.image icount with
  | none => none
  | some img =>
    match cgltf_ptrfixup t.sampler scount with
    | none => none
    | some smp => some ⟨img, smp⟩

/-- Fixup of one material (seven optional texture references). -/
def fixupMaterial (tcount : Nat) (m : PreMaterial) : Option PostMaterial :=
  match cgltf_ptrfixup m.normal_texture tcount with
  | none => none
  | some f1 =>
    match cgltf_ptrfixup m.emissive_texture tcount with
    | none => none
    | some f2 =>
      match cgltf_ptrfixup m.occlusion_texture tcount with
      | none => none
      | some f3 =>
        match cgltf_ptrfixup m.pbr_mr_base_color_texture tcount with
        | none => none
        | some f4 =>
          match cgltf_ptrfixup m.pbr_mr_metallic_roughness_texture tcount with
          | none => none
          | some f5 =>
            match cgltf_ptrfixup m.pbr_sg_diffuse_texture tcount with
            | none => none
            | some f6 =>
              match cgltf_ptrfixup m.pbr_sg_specular_glossiness_texture tcount with
              | none => none
              | some f7 => some ⟨f1, f2, f3, f4, f5, f6, f7⟩

/-- Fixup of one skin. -/
def fixupSkin (ncount acount : Nat) (s : PreSkin) : Option PostSkin :=
  match optMapM (fun v => cgltf_ptrfixup_req v ncount) s.joints with
  | none => none
  | some js =>
    match cgltf_ptrfixup s.skeleton ncount with
    | none => none
    | some sk =>
      match cgltf_ptrfixup s.inverse_bind_matrices acount with
      | none => none
      | some ibm => some ⟨js, sk, ibm⟩

/-- The children loop of the node fixup for one node `i`: each child is a
required node reference; a child that already has a parent is a structural
error; otherwise its parent is set to `i`. -/
def fixupChildrenLoop (ncount i : Nat) (parents : List (Option Nat)) :
    List Nat → Option (List Nat × List (Option Nat))
  | [] => some ([], parents)
  | c :: rest =>
    match cgltf_ptrfixup_req c ncount with
    | none => none
    | some idx =>
      match parents.getD idx none with
      | some _ => none
      | none =>
        match fixupChildrenLoop ncount i (parents.set idx (some i)) rest with
        | none => none
        | some (idxs, ps) => some (idx :: idxs, ps)

/-- The node loop of the fixup: children first (mutating the parent
fields), then the optional mesh, skin, camera and light references. -/
def fixupNodesLoop (ncount mcount scount ccount lcount : Nat) :
    List PreNode → Nat → List (Option Nat) →
    Option (List PostNodeCore × List (Option Nat))
  | [], _, parents => some ([], parents)
  | nd :: rest, i, parents =>
    match fixupChildrenLoop ncount i parents nd.children with
    | none => none
    | some (cidxs, parents1) =>
      match cgltf_ptrfixup nd.mesh mcount with
      | none => none
      | some msh =>
        match cgltf_ptrfixup nd.skin scount with
        | none => none
        | some sk =>
          match cgltf_ptrfixup nd.camera ccount with
          | none => none
          | some cam =>
            match cgltf_ptrfixup nd.light lcount with
            | none => none
            | some lt =>
              match fixupNodesLoop ncount mcount scount ccount lcount rest
                  (i + 1) parents1 with
              | none => none
              | some (cores, parents2) =>
                some (⟨cidxs, msh, sk, cam, lt⟩ :: cores, parents2)

/-- The scene loop of the fixup: each root is a required node reference and
must not already have a parent (the parent field is checked, not set). -/
def fixupScene (ncount : Nat) (parents : List (Option Nat)) (s : PreScene) :
    Option PostScene :=
  match optMapM (fun v =>
      match cgltf_ptrfixup_req v ncount with
      | none => none
      | some idx =>
        match parents.getD idx none with
        | some _ => none
        | none => some idx) s.nodes with
  | none => none
  | some idxs => some ⟨idxs⟩

/-- Fixup of one animation: required sampler input and output accessors,
required channel sampler (within the same animation), optional channel
target node. -/
def fixupAnimation (acount ncount : Nat) (an : PreAnimation) :
    Option PostAnimation :=
  match optMapM (fun s =>
      match cgltf_ptrfixup_req s.input acount with
      | none => none
      | some inp =>
        match cgltf_ptrfixup_req s.output acount with
        | none => none
        | some outp => some (inp, outp)) an.samplers with
  | none => none
  | some smps =>
    match optMapM (fun c =>
        match cgltf_ptrfixup_req c.sampler an.samplers.length with
        | none => none
        | some smp =>
          match cgltf_ptrfixup c.target_node ncount with
          | none => none
          | some tn => some (PostAnimationChannel.mk smp tn)) an.channels with
    | none => none
    | some chans => some ⟨smps, chans⟩

/-- cgltf_fixup_pointers: all fixup stages in source order.  `none` models
the CGLTF_ERROR_JSON return. -/
def cgltf_fixup_pointers (d : PreData) : Option PostData :=
  let acount := d.accessors.length
  let ncount := d.nodes.length
  match optMapM (fun m =>
      (optMapM (fixupPrimitive acount d.materials.length) m.primitives).map
        PostMesh.mk) d.meshes with
  | none => none
  | some meshes =>
    match optMapM (fixupAccessor d.buffer_views) d.accessors with
    | none => none
    | some accessors =>
      match optMapM (fixupTexture d.images.length d.samplers_count) d.textures with
      | none => none
      | some textures =>
        match optMapM (fun im => cgltf_ptrfixup im.buffer_view d.buffer_views.length)
            d.images with
        | none => none
        | some images =>
          match optMapM (fixupMaterial d.textures.length) d.materials with
          | none => none
          | some materials =>
            match optMapM (fun v =>
                (cgltf_ptrfixup_req v.buffer d.buffers_count).map
                  (fun b => PostBufferView.mk b v.stride)) d.buffer_views with
            | none => none
            | some buffer_views =>
              match optMapM (fixupSkin ncount acount) d.skins with
              | none => none
              | some skins =>
                match fixupNodesLoop ncount d.meshes.length d.skins.length
                    d.cameras_count d.lights_count d.nodes 0
                    (d.nodes.map PreNode.parent) with
                | none => none
                | some (nodes, parents) =>
                  match optMapM (fixupScene ncount parents) d.scenes with
                  | none => none
                  | some scenes =>
                    match cgltf_ptrfixup d.scene d.scenes.length with
                    | none => none
                    | some scn =>
                      match optMapM (fixupAnimation acount ncount) d.animations with
                      | none => none
                      | some animations =>
                        some ⟨meshes, accessors, textures, images, materials,
                          buffer_views, skins, nodes, parents, scenes,
                          animations, scn⟩

/-- The tail of cgltf_parse_json: a negative fixup return is surfaced as
invalid_gltf (after destroying the partial graph), success otherwise. -/
def cgltf_parse_json_back (d : PreData) : CgltfResult :=
  match cgltf_fixup_pointers d with
  | none => .invalid_gltf
  | some _ => .success

/-! ## JSON tokeniser (jsmn, as configured by cgltf: JSMN_PARENT_LINKS
defined, JSMN_STRICT not defined)

jsmn_parse runs in two modes distinguished by the tokens pointer being
null: the counting pass scans the input and counts token starts, the
filling pass additionally allocates and fills tokens.  Byte scanning
(strings, primitives) is common to both modes in the C source; the model
shares the scanning functions and separates only the mode-specific
completion.  Loops are driven by explicit fuel; running out of fuel is a
distinct outcome (`fuel_out`) never equal to any C error, and the top-level
entry points pass enough fuel for every terminating C run. -/

/-- Outcomes of the jsmn loops: the three C error codes plus fuel
exhaustion of the model. -/
inductive JsmnErr where
  | nomem
  | inval
  | part
  | fuel_out
deriving DecidableEq, Inhabited

/-- Token types (jsmntype_t). -/
inductive JsmnType where
  | undefined
  | object
  | array
  | string
  | primitive
deriving DecidableEq, Inhabited

/-- Token (jsmntok_t): type, start and end byte offsets (-1 when unset),
child count and parent token index (-1 for none). -/
structure JsmnTok where
  ty : JsmnType
  tstart : Int
  tend : Int
  size : Nat
  parent : Int
deriving DecidableEq, Inhabited

/-- Hexadecimal digit test of the \-u escape (0-9, A-F, a-f). -/
def isHexByte (c : Nat) : Bool :=
  (48 ≤ c ∧ c ≤ 57) ∨ (65 ≤ c ∧ c ≤ 70) ∨ (97 ≤ c ∧ c ≤ 102)

/-- The four-digit hex scan inside jsmn_parse_string: consumes up to four
bytes while input remains, failing on a non-hex byte; returns the position
after the last consumed byte (which is where the outer scan resumes, the
source decrementing and the loop then incrementing the position). -/
def jsmnHexScan (js : Array Nat) (len : Nat) : Nat → Nat → Except JsmnErr Nat
  | 0, pos => .ok pos
  | i + 1, pos =>
    if pos < len ∧ js.getD pos 0 ≠ 0 then
      if isHexByte (js.getD pos 0) then jsmnHexScan js len i (pos + 1)
      else .error .inval
    else .ok pos

/-- String scan of jsmn_parse_string, common to both modes: called just
after the opening quote, validates escapes, and returns the position of the
closing quote; a missing closing quote is JSMN_ERROR_PART, a bad escape
JSMN_ERROR_INVAL. -/
def jsmnStringScan (js : Array Nat) (len : Nat) : Nat → Nat → Except JsmnErr Nat
  | 0, _ => .error .fuel_out
  | fuel + 1, pos =>
    if pos < len ∧ js.getD pos 0 ≠ 0 then
      let c := js.getD pos 0
      if c = 34 then .ok pos
      else if c = 92 ∧ pos + 1 < len then
        let e := js.getD (pos + 1) 0
        if e = 34 ∨ e = 47 ∨ e = 92 ∨ e = 98 ∨ e = 102 ∨ e = 114 ∨ e = 110 ∨
            e = 116 then
          jsmnStringScan js len fuel (pos + 2)
        else if e = 117 then
          match jsmnHexScan js len 4 (pos + 2) with
          | .error err => .error err
          | .ok p2 => jsmnStringScan js len fuel p2
        else .error .inval
      else jsmnStringScan js len fuel (pos + 1)
    else .error .part

/-- Primitive scan of jsmn_parse_primitive, common to both modes (and
non-strict, so a colon also terminates and end of input falls through to
found): returns the final parser position, one before the terminating
byte.  A byte outside 32..126 that is not a terminator is
JSMN_ERROR_INVAL. -/
def jsmnPrimScan (js : Array Nat) (len : Nat) : Nat → Nat → Except JsmnErr Nat
  | 0, _ => .error .fuel_out
  | fuel + 1, pos =>
    if pos < len ∧ js.getD pos 0 ≠ 0 then
      let c := js.getD pos 0
      if c = 58 ∨ c = 9 ∨ c = 13 ∨ c = 10 ∨ c = 32 ∨ c = 44 ∨ c = 93 ∨ c = 125 then
        .ok (pos - 1)
      else if c < 32 ∨ c ≥ 127 then .error .inval
      else jsmnPrimScan js len fuel (pos + 1)
    else .ok (pos - 1)

/-- Character dispatch of the main jsmn_parse switch. -/
inductive JsmnCC where
  | openBrace
  | openBracket
  | closeBrace
  | closeBracket
  | quote
  | ws
  | colon
  | comma
  | other
deriving DecidableEq, Inhabited

/-- Classification of one byte by the main switch of jsmn_parse. -/
def jsmnCC (c : Nat) : JsmnCC :=
  if c = 123 then .openBrace
  else if c = 91 then .openBracket
  else if c = 125 then .closeBrace
  else if c = 93 then .closeBracket
  else if c = 34 then .quote
  else if c = 9 ∨ c = 13 ∨ c = 10 ∨ c = 32 then .ws
  else if c = 58 then .colon
  else if c = 44 then .comma
  else .other

/-- Counting pass of jsmn_parse (tokens = NULL): opening brackets, strings
and primitives are counted; closing brackets, colons and commas have no
effect (their handlers touch only the token array); there is no final
unmatched-bracket check. -/
def jsmnCountLoop (js : Array Nat) (len : Nat) :
    Nat → Nat → Nat → Except JsmnErr Nat
  | 0, _, _ => .error .fuel_out
  | fuel + 1, pos, cnt =>
    if pos < len ∧ js.getD pos 0 ≠ 0 then
      match jsmnCC (js.getD pos 0) with
      | .openBrace => jsmnCountLoop js len fuel (pos + 1) (cnt + 1)
      | .openBracket => jsmnCountLoop js len fuel (pos + 1) (cnt + 1)
      | .closeBrace => jsmnCountLoop js len fuel (pos + 1) cnt
      | .closeBracket => jsmnCountLoop js len fuel (pos + 1) cnt
      | .quote =>
        match jsmnStringScan js len fuel (pos + 1) with
        | .error e => .error e
        | .ok p => jsmnCountLoop js len fuel (p + 1) (cnt + 1)
      | .ws => jsmnCountLoop js len fuel (pos + 1) cnt
      | .colon => jsmnCountLoop js len fuel (pos + 1) cnt
      | .comma => jsmnCountLoop js len fuel (pos + 1) cnt
      | .other =>
        match jsmnPrimScan js len fuel pos with
        | .error e => .error e
        | .ok p => jsmnCountLoop js len fuel (p + 1) (cnt + 1)
    else .ok cnt

/-- Parser state of the filling pass: next token slot, current superior
token (-1 for none), the token array, and the running count (the local
count variable of jsmn_parse). -/
structure JsmnState where
  toknext : Nat
  toksuper : Int
  tokens : Array JsmnTok
  cnt : Nat
deriving Inhabited

/-- Child-count increment of tokens[i] (tokens[toksuper].size++). -/
def jsmnBumpSize (toks : Array JsmnTok) (i : Nat) : Array JsmnTok :=
  let t := toks.getD i default
  toks.setD i { t with size := t.size + 1 }

/-- Closing-bracket walk of jsmn_parse under JSMN_PARENT_LINKS: starting at
the last allocated token, follow parent links to the innermost open
container; check its type matches, set its end, and restore toksuper from
its parent link.  An already closed chain head with no parent succeeds
without writing when a superior exists and types match.  Fuel bounds the
walk (parent links of real runs strictly decrease). -/
def jsmnCloseWalk (tt : JsmnType) (pos : Nat) (tsuper : Int) :
    Nat → Array JsmnTok → Nat → Except JsmnErr (Array JsmnTok × Int)
  | 0, _, _ => .error .fuel_out
  | fuel + 1, toks, i =>
    let tok := toks.getD i default
    if tok.tstart ≠ -1 ∧ tok.tend = -1 then
      if tok.ty ≠ tt then .error .inval
      else .ok (toks.setD i { tok with tend := (pos : Int) + 1 }, tok.parent)
    else if tok.parent = -1 then
      if tok.ty ≠ tt ∨ tsuper = -1 then .error .inval else .ok (toks, tsuper)
    else jsmnCloseWalk tt pos tsuper fuel toks tok.parent.toNat

/-- Filling pass of jsmn_parse (tokens non-null, capacity N).  Allocation
beyond N is JSMN_ERROR_NOMEM; the final loop reports JSMN_ERROR_PART if an
opened container was never closed. -/
def jsmnFillLoop (js : Array Nat) (len N : Nat) :
    Nat → Nat → JsmnState → Except JsmnErr (Nat × Array JsmnTok)
  | 0, _, _ => .error .fuel_out
  | fuel + 1, pos, st =>
    if pos < len ∧ js.getD pos 0 ≠ 0 then
      match jsmnCC (js.getD pos 0) with
      | .openBrace =>
        if st.toknext ≥ N then .error .nomem
        else
          let tok : JsmnTok :=
            { ty := .object, tstart := (pos : Int), tend := -1, size := 0,
              parent := if st.toksuper ≠ -1 then st.toksuper else -1 }
          let toks1 := st.tokens.setD st.toknext tok
          let toks2 := if st.toksuper ≠ -1 then jsmnBumpSize toks1 st.toksuper.toNat
            else toks1
          jsmnFillLoop js len N fuel (pos + 1)
            ⟨st.toknext + 1, (st.toknext : Int), toks2, st.cnt + 1⟩
      | .openBracket =>
        if st.toknext ≥ N then .error .nomem
        else
          let tok : JsmnTok :=
            { ty := .array, tstart := (pos : Int), tend := -1, size := 0,
              parent := if st.toksuper ≠ -1 then st.toksuper else -1 }
          let toks1 := st.tokens.setD st.toknext tok
          let toks2 := if st.toksuper ≠ -1 then jsmnBumpSize toks1 st.toksuper.toNat
            else toks1
          jsmnFillLoop js len N fuel (pos + 1)
            ⟨st.toknext + 1, (st.toknext : Int), toks2, st.cnt + 1⟩
      | .closeBrace =>
        if st.toknext < 1 then .error .inval
        else
          match jsmnCloseWalk .object pos st.toksuper st.toknext st.tokens
              (st.toknext - 1) with
          | .error e => .error e
          | .ok (toks', tsuper') =>
            jsmnFillLoop js len N fuel (pos + 1)
              ⟨st.toknext, tsuper', toks', st.cnt⟩
      | .closeBracket =>
        if st.toknext < 1 then .error .inval
        else
          match jsmnCloseWalk .array pos st.toksuper st.toknext st.tokens
              (st.toknext - 1) with
          | .error e => .error e
          | .ok (toks', tsuper') =>
            jsmnFillLoop js len N fuel (pos + 1)
              ⟨st.toknext, tsuper', toks', st.cnt⟩
      | .quote =>
        match jsmnStringScan js len fuel (pos + 1) with
        | .error e => .error e
        | .ok p =>
          if st.toknext ≥ N then .error .nomem
          else
            let tok : JsmnTok :=
              { ty := .string, tstart := (pos : Int) + 1, tend := (p : Int),
                size := 0, parent := st.toksuper }
            let toks1 := st.tokens.setD st.toknext tok
            let toks2 := if st.toksuper ≠ -1 then jsmnBumpSize toks1 st.toksuper.toNat
              else toks1
            jsmnFillLoop js len N fuel (p + 1)
              ⟨st.toknext + 1, st.toksuper, toks2, st.cnt + 1⟩
      | .ws => jsmnFillLoop js len N fuel (pos + 1) st
      | .colon =>
        jsmnFillLoop js len N fuel (pos + 1)
          ⟨st.toknext, (st.toknext : Int) - 1, st.tokens, st.cnt⟩
      | .comma =>
        let st' : JsmnState :=
          if st.toksuper ≠ -1 ∧
              (st.tokens.getD st.toksuper.toNat default).ty ≠ .array ∧
              (st.tokens.getD st.toksuper.toNat default).ty ≠ .object then
            ⟨st.toknext, (st.tokens.getD st.toksuper.toNat default).parent,
              st.tokens, st.cnt⟩
          else st
        jsmnFillLoop js len N fuel (pos + 1) st'
      | .other =>
        match jsmnPrimScan js len fuel pos with
        | .error e => .error e
        | .ok p =>
          if st.toknext ≥ N then .error .nomem
          else
            let tok : JsmnTok :=
              { ty := .primitive, tstart := (pos : Int), tend := (p : Int) + 1,
                size := 0, parent := st.toksuper }
            let toks1 := st.tokens.setD st.toknext tok
            let toks2 := if st.toksuper ≠ -1 then jsmnBumpSize toks1 st.toksuper.toNat
              else toks1
            jsmnFillLoop js len N fuel (p + 1)
              ⟨st.toknext + 1, st.toksuper, toks2, st.cnt + 1⟩
    else
      if (List.range st.toknext).any (fun i =>
          (st.tokens.getD i default).tstart ≠ -1 ∧
          (st.tokens.getD i default).tend = -1) then
        .error .part
      else .ok (st.cnt, st.tokens)

/-- First jsmn_parse invocation of cgltf_parse_json: counting pass over the
whole input, from position 0 with count 0. -/
def jsmn_parse_count (js : Array Nat) : Except JsmnErr Nat :=
  jsmnCountLoop js js.size (js.size + 1) 0 0

/-- Second jsmn_parse invocation of cgltf_parse_json: filling pass with a
freshly initialised parser and an array of N token slots. -/
def jsmn_parse_fill (js : Array Nat) (N : Nat) :
    Except JsmnErr (Nat × Array JsmnTok) :=
  jsmnFillLoop js js.size N (js.size + 1) 0
    ⟨0, -1, Array.mkArray N default, 0⟩

/-! ## Parse front end (cgltf_parse and the token phase of
cgltf_parse_json)

The schema decoding stage (cgltf_parse_json_root) is beyond this model;
the front end is modelled up to the point where decoding would start, and
`decode` marks that hand-off, carrying the detected file type, the token
count and tokens, and the JSON bytes handed to the decoder. -/

/-- Options fields consulted by the parse front end. -/
structure CgltfOptions where
  ftype : CgltfFileType
  json_token_count : Nat
deriving DecidableEq, Inhabited

/-- Outcome of the parse front end: an error result, or hand-off to the
schema decoder. -/
inductive ParseFront where
  | fail (r : CgltfResult)
  | decode (ft : CgltfFileType) (token_count : Nat) (tokens : Array JsmnTok)
      (json : Array Nat)
deriving DecidableEq, Inhabited

/-- GLB header magic (ASCII glTF as little-endian u32). -/
def GlbMagic : Nat := 1179937895

/-- JSON chunk magic. -/
def GlbMagicJsonChunk : Nat := 1313821514

/-- BIN chunk magic. -/
def GlbMagicBinChunk : Nat := 5130562

/-- GLB header size (12 bytes). -/
def GlbHeaderSize : Nat := 12

/-- GLB chunk header size (8 bytes). -/
def GlbChunkHeaderSize : Nat := 8

/-- Token phase of cgltf_parse_json: when the configured token count is
zero the counting pass sizes the array (a non-positive return is
invalid_json), then the filling pass runs; a non-positive return is again
invalid_json.  Success hands the tokens to the schema decoder. -/
def cgltf_parse_json_tokens (ft : CgltfFileType) (token_count_opt : Nat)
    (json : Array Nat) : ParseFront :=
  let n : Option Nat :=
    if token_count_opt = 0 then
      match jsmn_parse_count json with
      | .error _ => none
      | .ok n => if n = 0 then none else some n
    else some token_count_opt
  match n with
  | none => .fail .invalid_json
  | some n =>
    match jsmn_parse_fill json n with
    | .error _ => .fail .invalid_json
    | .ok (m, toks) =>
      if m = 0 then .fail .invalid_json else .decode ft m toks json

/-- cgltf_parse, up to the schema decoder: the length gate (before the
null-options gate), the file-type pinning against the magic, and for the
binary form the version, total length and chunk framing checks of the GLB
envelope. -/
def cgltf_parse_front (opts : Option CgltfOptions) (data : Array Nat) :
    ParseFront :=
  if data.size < GlbHeaderSize then .fail .data_too_short
  else
    match opts with
    | none => .fail .invalid_options
    | some o =>
      let tmp := readU32 data 0
      if tmp ≠ GlbMagic ∧ o.ftype = .glb then .fail .unknown_format
      else
        let ft := if tmp ≠ GlbMagic ∧ o.ftype = .invalid then
          CgltfFileType.gltf else o.ftype
        if ft = .gltf then cgltf_parse_json_tokens .gltf o.json_token_count data
        else
          let version := readU32 data 4
          if version ≠ 2 then .fail .unknown_format
          else if readU32 data 8 > data.size then .fail .data_too_short
          else if GlbHeaderSize + GlbChunkHeaderSize > data.size then
            .fail .data_too_short
          else
            let json_length := readU32 data 12
            if GlbHeaderSize + GlbChunkHeaderSize + json_length > data.size then
              .fail .data_too_short
            else if readU32 data 16 ≠ GlbMagicJsonChunk then .fail .unknown_format
            else
              let jsonBytes := data.extract (GlbHeaderSize + GlbChunkHeaderSize)
                (GlbHeaderSize + GlbChunkHeaderSize + json_length)
              if GlbHeaderSize + GlbChunkHeaderSize + json_length +
                  GlbChunkHeaderSize ≤ data.size then
                let bin_length := readU32 data (20 + json_length)
                if GlbHeaderSize + GlbChunkHeaderSize + json_length +
                    GlbChunkHeaderSize + bin_length > data.size then
                  .fail .data_too_short
                else if readU32 data (20 + json_length + 4) ≠ GlbMagicBinChunk then
                  .fail .unknown_format
                else cgltf_parse_json_tokens .glb o.json_token_count jsonBytes
              else cgltf_parse_json_tokens .glb o.json_token_count jsonBytes

/-! ## Theorems -/

/-- Claim C3 (counterexample): the claim states that a mat3 element with
2-byte components occupies 12 bytes; cgltf_calc_size returns
12 * component_size = 24 bytes for mat3 with 2-byte components, so the
claim as stated is false. -/
theorem C3_counterexample :
    cgltf_calc_size .mat3 .r_16u = 24 ∧ ¬ cgltf_calc_size .mat3 .r_16u = 12 := by
  decide

/-- Claim C3 (amended): cgltf_calc_size returns component_size times
num_components for every (type, component type) pair, except exactly the
matrix alignment cases: mat2 with 1-byte components occupies 8 bytes, mat3
with 1-byte components 12 bytes, and mat3 with 2-byte components 24 bytes
(12 * component_size). -/
theorem C3_element_size :
    ∀ (ty : CgltfType) (ct : CgltfComponentType),
      (ty = .mat2 ∧ cgltf_component_size ct = 1 → cgltf_calc_size ty ct = 8)
      ∧ (ty = .mat3 ∧ cgltf_component_size ct = 1 → cgltf_calc_size ty ct = 12)
      ∧ (ty = .mat3 ∧ cgltf_component_size ct = 2 → cgltf_calc_size ty ct = 24)
      ∧ (¬(ty = .mat2 ∧ cgltf_component_size ct = 1) →
          ¬(ty = .mat3 ∧ (cgltf_component_size ct = 1 ∨ cgltf_component_size ct = 2)) →
          cgltf_calc_size ty ct = cgltf_component_size ct * cgltf_num_components ty) := by
  decide

/-- Witness for C3: the mat2 1-byte exception evaluated at a concrete
pair. -/
theorem C3_witness : cgltf_calc_size .mat2 .r_8u = 8 :=
  (C3_element_size .mat2 .r_8u).1 ⟨rfl, rfl⟩

/-- Claim C4: the normalized component conversion divides by exactly
UINT_MAX (u32), INT16_MAX (i16), UINT16_MAX (u16), INT8_MAX (i8) and 127
(u8, CHAR_MAX rather than 255); consequently reading a single-element
scalar normalized u16 accessor over the bytes 0xFF 0xFF yields exactly
1. -/
theorem C4_normalized_conversion :
    (∀ buf p, cgltf_component_read_float buf p .r_32u true = (readU32 buf p : ℚ) / 4294967295)
    ∧ (∀ buf p, cgltf_component_read_float buf p .r_16 true = (readI16 buf p : ℚ) / 32767)
    ∧ (∀ buf p, cgltf_component_read_float buf p .r_16u true = (readU16 buf p : ℚ) / 65535)
    ∧ (∀ buf p, cgltf_component_read_float buf p .r_8 true = (readI8 buf p : ℚ) / 127)
    ∧ (∀ buf p, cgltf_component_read_float buf p .r_8u true = (readU8 buf p : ℚ) / 127)
    ∧ cgltf_accessor_read_float
        ⟨false, some ⟨0, #[255, 255]⟩, 0, 2, .scalar, .r_16u, true⟩ 0 1 = some [1] :=
  ⟨fun _ _ => rfl, fun _ _ => rfl, fun _ _ => rfl, fun _ _ => rfl, fun _ _ => rfl, by
    simp only [cgltf_accessor_read_float, cgltf_element_read_float,
      cgltf_component_read_float, cgltf_num_components, cgltf_component_size,
      readU16, readU8]
    norm_num [List.range_succ]
    rw [if_neg (by decide), if_neg (by decide)]⟩

/-- Claim C10: any input shorter than the 12-byte GLB header size makes
cgltf_parse return data_too_short, whatever the content and options; the
length gate precedes the null-options gate, so even null options yield
data_too_short rather than invalid_options. -/
theorem C10_short_input (opts : Option CgltfOptions) (data : Array Nat)
    (h : data.size < 12) :
    cgltf_parse_front opts data = .fail .data_too_short := by
  unfold cgltf_parse_front
  rw [if_pos]
  exact h

/-- Witness for C10: a syntactically valid 7-byte JSON document with null
options is rejected as data_too_short. -/
theorem C10_witness :
    cgltf_parse_front none #[123, 34, 97, 34, 58, 53, 125] = .fail .data_too_short :=
  C10_short_input none #[123, 34, 97, 34, 58, 53, 125] (by decide)

/-- Claim C2 (counterexample): with the file type pinned to text and an
input whose first four bytes are the GLB magic, cgltf_parse does not
return unknown_format; it parses the bytes as JSON (here failing with
invalid_json in the tokeniser).  The third conjunct records that the
input does start with the GLB magic. -/
theorem C2_counterexample :
    cgltf_parse_front (some ⟨.gltf, 0⟩) #[103, 108, 84, 70, 1, 1, 1, 1, 1, 1, 1, 1] =
      .fail .invalid_json ∧
    cgltf_parse_front (some ⟨.gltf, 0⟩) #[103, 108, 84, 70, 1, 1, 1, 1, 1, 1, 1, 1] ≠
      .fail .unknown_format ∧
    readU32 #[103, 108, 84, 70, 1, 1, 1, 1, 1, 1, 1, 1] 0 = GlbMagic := by
  refine ⟨by decide, by decide, by decide⟩

/-- Claim C2 (amended): only the binary-pinned direction is rejected as a
format mismatch: pinning the type to binary while the first four bytes are
not the GLB magic yields unknown_format; pinning the type to text makes
cgltf_parse hand the whole input to the JSON path regardless of the magic
(so a GLB input pinned to text is tokenised as JSON rather than rejected as
unknown_format). -/
theorem C2_pinned_type_mismatch (o : CgltfOptions) (data : Array Nat)
    (hsize : ¬ data.size < GlbHeaderSize) :
    (o.ftype = .glb → readU32 data 0 ≠ GlbMagic →
      cgltf_parse_front (some o) data = .fail .unknown_format)
    ∧ (o.ftype = .gltf →
      cgltf_parse_front (some o) data =
        cgltf_parse_json_tokens .gltf o.json_token_count data) := by
  constructor
  · intro hglb hmagic
    simp [cgltf_parse_front, hglb, hmagic, hsize]
  · intro hgltf
    simp [cgltf_parse_front, hgltf, hsize]

/-- Witness for C2 (amended): a 12-byte input that does not start with the
GLB magic, with the type pinned to binary, is rejected as
unknown_format. -/
theorem C2_witness :
    cgltf_parse_front (some ⟨.glb, 0⟩) #[1, 2, 3, 4, 0, 0, 0, 0, 0, 0, 0, 0] =
      .fail .unknown_format :=
  (C2_pinned_type_mismatch ⟨.glb, 0⟩ #[1, 2, 3, 4, 0, 0, 0, 0, 0, 0, 0, 0]
    (by decide)).1 rfl (by decide)

/-- Claim C8 (counterexample): with a non-null destination of capacity 4
and an extras slice of 4 bytes, cgltf_copy_extras_json copies all 4 bytes
(more than dest_size - 1 = 3) and writes the terminating NUL at index 4,
which is not within a capacity of 4: the claim as stated is false. -/
theorem C8_counterexample :
    (cgltf_copy_extras_json #[65, 66, 67, 68] ⟨0, 4⟩ true 4).2.2 =
      [(0, 65), (1, 66), (2, 67), (3, 68), (4, 0)] ∧
    ((4 : Nat), (0 : Nat)) ∈ (cgltf_copy_extras_json #[65, 66, 67, 68] ⟨0, 4⟩ true 4).2.2 ∧
    ¬ ((4 : Nat) < 4) := by
  refine ⟨by decide, by decide, by decide⟩

/-- Byte writes of strncpy lie below the copy length. -/
theorem strncpyWrites_lt (src : Array Nat) (b n : Nat) :
    ∀ w ∈ strncpyWrites src b n, w.1 < n := by
  intro w hw
  unfold strncpyWrites at hw
  obtain ⟨i, hi, rfl⟩ := List.mem_map.1 hw
  exact List.mem_range.1 hi

/-- Claim C8 (amended): with a null destination cgltf_copy_extras_json
returns success and stores json_size + 1 (a trailing NUL included) in
dest_size.  With a non-null destination the copy stays within the capacity
in exactly two regimes: when json_size < dest_size (full copy of json_size
bytes plus NUL at json_size), and when dest_size is at least 1 and
dest_size + 1 < json_size (truncated copy of dest_size - 1 bytes plus NUL
at dest_size - 1).  In the remaining regime dest_size ≤ json_size ≤
dest_size + 1 the function copies json_size bytes and writes the NUL at
index json_size, which is outside a destination of capacity dest_size. -/
theorem C8_copy_extras (json : Array Nat) (ex : CgltfExtras) (ds : Nat) :
    (cgltf_copy_extras_json json ex false ds =
      (.success, (ex.end_offset - ex.start_offset) + 1, []))
    ∧ (ex.end_offset - ex.start_offset < ds →
        ∀ w ∈ (cgltf_copy_extras_json json ex true ds).2.2, w.1 < ds)
    ∧ (1 ≤ ds → ds < SizeTMod → ds + 1 < ex.end_offset - ex.start_offset →
        ∀ w ∈ (cgltf_copy_extras_json json ex true ds).2.2, w.1 < ds)
    ∧ (ds ≤ ex.end_offset - ex.start_offset →
        ex.end_offset - ex.start_offset ≤ ds + 1 →
        (ex.end_offset - ex.start_offset, 0) ∈
          (cgltf_copy_extras_json json ex true ds).2.2) := by
  refine ⟨rfl, ?_, ?_, ?_⟩
  · intro hlt w hw
    unfold cgltf_copy_extras_json at hw
    rw [if_neg (by simp)] at hw
    rw [if_neg (by omega)] at hw
    simp only [List.mem_append, List.mem_singleton] at hw
    rcases hw with hw | hw
    · exact lt_trans (strncpyWrites_lt json ex.start_offset _ w hw) hlt
    · subst hw; exact hlt
  · intro h1 h2 h3 w hw
    have hsub : cgltf_size_sub1 ds = ds - 1 := by
      unfold cgltf_size_sub1 SizeTMod
      unfold SizeTMod at h2
      omega
    unfold cgltf_copy_extras_json at hw
    rw [if_neg (by simp)] at hw
    rw [if_pos h3, hsub] at hw
    simp only [List.mem_append, List.mem_singleton] at hw
    rcases hw with hw | hw
    · have := strncpyWrites_lt json ex.start_offset _ w hw
      omega
    · subst hw; simpa using Nat.sub_lt h1 Nat.one_pos
  · intro hle hle2
    unfold cgltf_copy_extras_json
    rw [if_neg (by simp)]
    rw [if_neg (by omega)]
    simp

/-- Witness for C8 (amended): a 2-byte extras slice copied into a capacity
5 destination stays within the capacity. -/
theorem C8_witness :
    (2 : Nat) < 5 ∧
    ∀ w ∈ (cgltf_copy_extras_json #[70, 71] ⟨0, 2⟩ true 5).2.2, w.1 < 5 :=
  ⟨by decide, (C8_copy_extras #[70, 71] ⟨0, 2⟩ 5).2.1 (by decide)⟩

/-- The offset table has exactly num_components entries for every shape. -/
theorem specComponentOffsets_length :
    ∀ (ty : CgltfType) (ct : CgltfComponentType),
      (specComponentOffsets ty ct).length = cgltf_num_components ty := by
  decide

/-- With enough output capacity, cgltf_element_read_float reads the
components at exactly the offsets of the table. -/
theorem cgltf_element_read_float_eq (buf : Array Nat) (e : Nat)
    (ty : CgltfType) (ct : CgltfComponentType) (norm : Bool) (cap : Nat)
    (h : cgltf_num_components ty ≤ cap) :
    cgltf_element_read_float buf e ty ct norm cap =
      some ((specComponentOffsets ty ct).map
        (fun o => cgltf_component_read_float buf (e + o) ct norm)) := by
  unfold cgltf_element_read_float specComponentOffsets
  rw [if_neg (not_lt.2 h)]
  by_cases h1 : ty = .mat2 ∧ cgltf_component_size ct = 1
  · rw [if_pos h1, if_pos h1]
    simp
  · rw [if_neg h1, if_neg h1]
    by_cases h2 : ty = .mat3 ∧ cgltf_component_size ct = 1
    · rw [if_pos h2, if_pos h2]
      simp
    · rw [if_neg h2, if_neg h2]
      by_cases h3 : ty = .mat3 ∧ cgltf_component_size ct = 2
      · rw [if_pos h3, if_pos h3]
        simp
      · rw [if_neg h3, if_neg h3]
        simp [List.map_map, Function.comp]

/-- Claim C5: cgltf_accessor_read_float fails exactly when the accessor is
sparse, has no buffer view, or the output capacity is below
num_components; otherwise it fills exactly num_components floats, read at
the component offsets of the alignment table (aligned for the three matrix
special cases, contiguous otherwise) from the element at
view.offset + accessor.offset + stride * index. -/
theorem C5_read_float_contract (acc : ReadAccessor) (index cap : Nat) :
    (cgltf_accessor_read_float acc index cap = none ↔
      acc.is_sparse = true ∨ acc.buffer_view = none ∨
        cap < cgltf_num_components acc.ty)
    ∧ (∀ bv, acc.buffer_view = some bv → acc.is_sparse = false →
        cgltf_num_components acc.ty ≤ cap →
        cgltf_accessor_read_float acc index cap =
          some ((specComponentOffsets acc.ty acc.component_type).map
            (fun o => cgltf_component_read_float bv.data
              (acc.offset + bv.offset + acc.stride * index + o)
              acc.component_type acc.normalized))
        ∧ (specComponentOffsets acc.ty acc.component_type).length =
            cgltf_num_components acc.ty) := by
  constructor
  · cases hs : acc.is_sparse with
    | true => simp [cgltf_accessor_read_float, hs]
    | false =>
      cases hbv : acc.buffer_view with
      | none => simp [cgltf_accessor_read_float, hs, hbv]
      | some bv =>
        simp only [cgltf_accessor_read_float, hs, hbv, Bool.false_eq_true,
          false_or, if_false, Bool.false_eq_true]
        by_cases hc : cap < cgltf_num_components acc.ty
        · simp only [hc, iff_true]
          unfold cgltf_element_read_float
          rw [if_pos hc]
          simp
        · rw [cgltf_element_read_float_eq _ _ _ _ _ _ (not_lt.1 hc)]
          simp [hc]
  · intro bv hbv hs hcap
    refine ⟨?_, specComponentOffsets_length acc.ty acc.component_type⟩
    simp only [cgltf_accessor_read_float, hs, hbv, Bool.false_eq_true, if_false]
    exact cgltf_element_read_float_eq _ _ _ _ _ _ hcap

/-- Witness for C5: a mat2 accessor with 1-byte components over six bytes
is read at the aligned offsets 0, 1, 4, 5. -/
theorem C5_witness :
    cgltf_accessor_read_float
      ⟨false, some ⟨0, #[1, 2, 0, 0, 3, 4]⟩, 0, 8, .mat2, .r_8u, false⟩ 0 4 =
      some [1, 2, 3, 4] := by
  have h := (C5_read_float_contract
    ⟨false, some ⟨0, #[1, 2, 0, 0, 3, 4]⟩, 0, 8, .mat2, .r_8u, false⟩ 0 4).2
    ⟨0, #[1, 2, 0, 0, 3, 4]⟩ rfl rfl (by decide)
  rw [h.1]
  norm_num [specComponentOffsets, cgltf_component_size, cgltf_component_read_float,
    cgltf_component_read_index, readU8]
  simp

/-- List.findSome? returns the value of the first hit: if every element
before position i maps to none and the element at i maps to some r, the
traversal returns some r. -/
theorem findSome?_eq_of_get? {α β : Type} (f : α → Option β) :
    ∀ (l : List α) (i : Nat) (a : α) (r : β),
      l.get? i = some a →
      (∀ j, j < i → ∀ b, l.get? j = some b → f b = none) →
      f a = some r → l.findSome? f = some r := by
  intro l
  induction l with
  | nil => intro i a r h; simp at h
  | cons x xs ih =>
    intro i a r hget hprev hf
    cases i with
    | zero =>
      rw [List.get?_cons_zero] at hget
      injection hget with h
      subst h
      simp [List.findSome?, hf]
    | succ n =>
      rw [List.get?_cons_succ] at hget
      have hx : f x = none := hprev 0 (Nat.succ_pos n) x List.get?_cons_zero
      simp only [List.findSome?, hx]
      exact ih n a r hget
        (fun j hj b hb => hprev (j + 1) (Nat.succ_lt_succ hj) b
          (by rwa [List.get?_cons_succ])) hf

/-- Unsigned decrement below the modulus is ordinary subtraction. -/
theorem cgltf_size_sub1_eq (c : Nat) (h1 : 1 ≤ c) (h2 : c < SizeTMod) :
    cgltf_size_sub1 c = c - 1 := by
  unfold SizeTMod at h2
  unfold cgltf_size_sub1 SizeTMod
  omega

/-- Claim C6: cgltf_validate checks every accessor that has a buffer view
against view.size ≥ offset + stride * (count - 1) + element_size, and an
accessor violating the inequality (all earlier accessors passing their
checks) makes validate return data_too_short. -/
theorem C6_validate_accessor_bounds (d : VData) (i : Nat) (a : VAccessor)
    (v : VBufferView)
    (hget : d.accessors.get? i = some a)
    (hprev : ∀ j, j < i → ∀ b, d.accessors.get? j = some b → checkAccessor b = none)
    (hbv : a.buffer_view = some v)
    (hc1 : 1 ≤ a.count) (hc2 : a.count < SizeTMod)
    (hfit : a.offset + a.stride * (a.count - 1) +
      cgltf_calc_size a.ty a.component_type < SizeTMod)
    (hviol : v.size < a.offset + a.stride * (a.count - 1) +
      cgltf_calc_size a.ty a.component_type) :
    cgltf_validate d = .data_too_short := by
  have hcheck : checkAccessor a = some .data_too_short := by
    simp only [checkAccessor, hbv]
    rw [cgltf_size_sub1_eq a.count hc1 hc2, Nat.mod_eq_of_lt hfit, if_pos hviol]
  have hfs := findSome?_eq_of_get? checkAccessor d.accessors i a _ hget hprev hcheck
  unfold cgltf_validate
  rw [hfs]

/-- Witness for C6: the accessor with count 3, type vec3, component f32
(stride 12, element size 12, required size 36) over a buffer view of size
20 makes validate return data_too_short. -/
theorem C6_witness :
    cgltf_validate ⟨[⟨0, 12, 3, .vec3, .r_32f, some ⟨0, 20, some ⟨20, none⟩⟩,
      false, default⟩], [], [], []⟩ = .data_too_short :=
  C6_validate_accessor_bounds _ 0 _ ⟨0, 20, some ⟨20, none⟩⟩ rfl
    (fun j hj => absurd hj (Nat.not_lt_zero j)) rfl (by decide) (by decide)
    (by decide) (by decide)

/-- An element on which the body fails makes the whole traversal fail late
or early, mirroring the early return of the C loops. -/
theorem optMapM_eq_none_of_mem {α β : Type} (f : α → Option β) :
    ∀ (l : List α) (x : α), x ∈ l → f x = none → optMapM f l = none := by
  intro l
  induction l with
  | nil => intro x hx; cases hx
  | cons a as ih =>
    intro x hx hfx
    rcases List.mem_cons.1 hx with rfl | hmem
    · simp [optMapM, hfx]
    · unfold optMapM
      cases hfa : f a with
      | none => rfl
      | some b => rw [ih x hmem hfx]

/-- Claim C1: the fixup applies the two reference policies.  A required
edge resolves exactly when the encoding is nonzero and at most the array
length; an optional edge keeps a zero encoding absent and, when nonzero,
resolves exactly when the encoding is at most the array length.  A
primitive attribute whose encoded accessor reference violates the required
policy makes the parse return invalid_gltf (the partial graph being
destroyed is a memory effect outside this model). -/
theorem C1_fixup_reference_policies :
    (∀ v n : Nat, (cgltf_ptrfixup_req v n).isSome ↔ (v ≠ 0 ∧ v ≤ n))
    ∧ (∀ n : Nat, cgltf_ptrfixup 0 n = some none)
    ∧ (∀ v n : Nat, v ≠ 0 → ((cgltf_ptrfixup v n).isSome ↔ v ≤ n))
    ∧ (∀ (d : PreData) (i j k e : Nat) (m : PreMesh) (p : PrePrimitive),
        d.meshes.get? i = some m → m.primitives.get? j = some p →
        p.attributes.get? k = some e → (e = 0 ∨ d.accessors.length < e) →
        cgltf_parse_json_back d = .invalid_gltf) := by
  refine ⟨?_, ?_, ?_, ?_⟩
  · intro v n
    unfold cgltf_ptrfixup_req
    by_cases h : v = 0 ∨ v > n
    · rw [if_pos h]
      simp only [Option.isSome_none, Bool.false_eq_true, false_iff]
      omega
    · rw [if_neg h]
      simp only [Option.isSome_some, true_iff]
      omega
  · intro n
    simp [cgltf_ptrfixup]
  · intro v n hv
    unfold cgltf_ptrfixup
    rw [if_pos hv]
    by_cases h : v > n
    · rw [if_pos h]
      simp only [Option.isSome_none, Bool.false_eq_true, false_iff]
      omega
    · rw [if_neg h]
      simp only [Option.isSome_some, true_iff]
      omega
  · intro d i j k e m p hm hp he hviol
    have hreq : cgltf_ptrfixup_req e d.accessors.length = none := by
      unfold cgltf_ptrfixup_req
      rw [if_pos (by omega)]
    have hattrs : optMapM (fun v => cgltf_ptrfixup_req v d.accessors.length)
        p.attributes = none :=
      optMapM_eq_none_of_mem _ p.attributes e (List.get?_mem he) hreq
    have hprim : fixupPrimitive d.accessors.length d.materials.length p = none := by
      unfold fixupPrimitive
      cases h1 : cgltf_ptrfixup p.indices d.accessors.length with
      | none => rfl
      | some ind =>
        cases h2 : cgltf_ptrfixup p.material d.materials.length with
        | none => rfl
        | some mat => rw [hattrs]
    have hmesh : (optMapM (fixupPrimitive d.accessors.length d.materials.length)
        m.primitives).map PostMesh.mk = none := by
      rw [optMapM_eq_none_of_mem _ m.primitives p (List.get?_mem hp) hprim]
      rfl
    have hmeshes : optMapM (fun mm =>
        (optMapM (fixupPrimitive d.accessors.length d.materials.length)
          mm.primitives).map PostMesh.mk) d.meshes = none :=
      optMapM_eq_none_of_mem _ d.meshes m (List.get?_mem hm) hmesh
    simp only [cgltf_parse_json_back, cgltf_fixup_pointers]
    rw [hmeshes]

/-- Witness for C1: a primitive attribute encoded as 6 (accessor index 5)
with only 3 accessors present makes the parse return invalid_gltf. -/
theorem C1_witness :
    cgltf_parse_json_back
      ⟨[⟨[⟨0, 0, [6], []⟩]⟩], [default, default, default], [], [], [], [], [],
        [], [], [], 0, 0, 0, 0, 0⟩ = .invalid_gltf :=
  C1_fixup_reference_policies.2.2.2
    ⟨[⟨[⟨0, 0, [6], []⟩]⟩], [default, default, default], [], [], [], [], [],
      [], [], [], 0, 0, 0, 0, 0⟩ 0 0 0 6 ⟨[⟨0, 0, [6], []⟩]⟩ ⟨0, 0, [6], []⟩
    rfl rfl rfl (Or.inr (by decide))

/-- Setting then reading the same position of a list. -/
theorem listGetD_set_self {α : Type} (d : α) :
    ∀ (l : List α) (i : Nat) (v : α), i < l.length → (l.set i v).getD i d = v := by
  intro l
  induction l with
  | nil => intro i v h; simp at h
  | cons a as ih =>
    intro i v h
    cases i with
    | zero => rfl
    | succ m => exact ih m v (by simpa using h)

/-- Setting one position of a list leaves the others unchanged. -/
theorem listGetD_set_ne {α : Type} (d : α) :
    ∀ (l : List α) (i j : Nat) (v : α), i ≠ j →
      (l.set i v).getD j d = l.getD j d := by
  intro l
  induction l with
  | nil => intro i j v h; rfl
  | cons a as ih =>
    intro i j v h
    cases i with
    | zero =>
      cases j with
      | zero => exact absurd rfl h
      | succ m => rfl
    | succ m =>
      cases j with
      | zero => rfl
      | succ m2 => exact ih m m2 v (fun hh => h (by rw [hh]))

/-- A resolved required reference is in bounds. -/
theorem cgltf_ptrfixup_req_lt {v n idx : Nat}
    (h : cgltf_ptrfixup_req v n = some idx) : idx < n := by
  unfold cgltf_ptrfixup_req at h
  by_cases hc : v = 0 ∨ v > n
  · rw [if_pos hc] at h; cases h
  · rw [if_neg hc] at h; injection h with h; omega

/-- Invariant of the children loop: a successful pass resolves each child
in bounds, touches exactly the parent entries of the resolved children
(all previously unset, each set to the visiting node i), and resolves no
child twice. -/
theorem fixupChildrenLoop_spec (n i : Nat) :
    ∀ (cs : List Nat) (parents : List (Option Nat)) (idxs : List Nat)
      (ps : List (Option Nat)),
      parents.length = n →
      fixupChildrenLoop n i parents cs = some (idxs, ps) →
      ps.length = n ∧
      (∀ k, k ∉ idxs → ps.getD k none = parents.getD k none) ∧
      (∀ k, k ∈ idxs →
        k < n ∧ parents.getD k none = none ∧ ps.getD k none = some i ∧
        idxs.count k = 1) := by
  intro cs
  induction cs with
  | nil =>
    intro parents idxs ps hlen h
    unfold fixupChildrenLoop at h
    simp only [Option.some.injEq, Prod.mk.injEq] at h
    obtain ⟨rfl, rfl⟩ := h
    exact ⟨hlen, fun k _ => rfl, fun k hk => absurd hk (List.not_mem_nil k)⟩
  | cons c rest ih =>
    intro parents idxs ps hlen h
    unfold fixupChildrenLoop at h
    cases hreq : cgltf_ptrfixup_req c n with
    | none => rw [hreq] at h; cases h
    | some idx =>
      simp only [hreq] at h
      cases hpar : parents.getD idx none with
      | some p => simp only [hpar] at h; exact Option.noConfusion h
      | none =>
        simp only [hpar] at h
        cases hrec : fixupChildrenLoop n i (parents.set idx (some i)) rest with
        | none => simp only [hrec] at h; exact Option.noConfusion h
        | some pr =>
          obtain ⟨idxs', ps'⟩ := pr
          simp only [hrec] at h
          simp only [Option.some.injEq, Prod.mk.injEq] at h
          obtain ⟨rfl, rfl⟩ := h
          have hidx : idx < n := cgltf_ptrfixup_req_lt hreq
          have hlen1 : (parents.set idx (some i)).length = n := by
            rw [List.length_set]; exact hlen
          obtain ⟨ihlen, ihunch, ihmem⟩ :=
            ih (parents.set idx (some i)) idxs' ps' hlen1 hrec
          have hset_self : (parents.set idx (some i)).getD idx none = some i :=
            listGetD_set_self none parents idx (some i) (hlen ▸ hidx)
          have hnotin : idx ∉ idxs' := by
            intro hmem
            have hc := (ihmem idx hmem).2.1
            rw [hset_self] at hc
            cases hc
          refine ⟨ihlen, ?_, ?_⟩
          · intro k hk
            have hk1 : k ≠ idx := fun hh => hk (hh ▸ List.mem_cons_self idx idxs')
            have hk2 : k ∉ idxs' := fun hh => hk (List.mem_cons_of_mem idx hh)
            rw [ihunch k hk2,
              listGetD_set_ne none parents idx k (some i) (fun hh => hk1 hh.symm)]
          · intro k hk
            rcases List.mem_cons.1 hk with rfl | hk'
            · refine ⟨hidx, hpar, ?_, ?_⟩
              · rw [ihunch k hnotin, hset_self]
              · rw [List.count_cons_self, List.count_eq_zero_of_not_mem hnotin]
            · have hkidx : k ≠ idx := fun hh => hnotin (hh ▸ hk')
              obtain ⟨hk_lt, hk_par, hk_ps, hk_cnt⟩ := ihmem k hk'
              refine ⟨hk_lt, ?_, hk_ps, ?_⟩
              · have hh := listGetD_set_ne none parents idx k (some i)
                  (fun hh2 => hkidx hh2.symm)
                rw [hh] at hk_par
                exact hk_par
              · rw [List.count_cons_of_ne hkidx]
                exact hk_cnt

/-- Invariant of the node loop: a successful pass leaves the parent entry
of every node either untouched (and the node appears in no resolved
children list) or assigns it exactly once, to the index of the unique node
listing it as a child. -/
theorem fixupNodesLoop_spec (n mc sc cc lc : Nat) :
    ∀ (nds : List PreNode) (i : Nat) (parents : List (Option Nat))
      (cores : List PostNodeCore) (ps : List (Option Nat)),
      parents.length = n →
      fixupNodesLoop n mc sc cc lc nds i parents = some (cores, ps) →
      ps.length = n ∧ cores.length = nds.length ∧
      ∀ k,
        (ps.getD k none = parents.getD k none ∧
          ∀ j, j < cores.length → k ∉ (cores.getD j default).children) ∨
        (k < n ∧ parents.getD k none = none ∧
          ∃ j, j < cores.length ∧ ps.getD k none = some (i + j) ∧
            (cores.getD j default).children.count k = 1 ∧
            ∀ j2, j2 < cores.length → j2 ≠ j →
              k ∉ (cores.getD j2 default).children) := by
  intro nds
  induction nds with
  | nil =>
    intro i parents cores ps hlen h
    unfold fixupNodesLoop at h
    simp only [Option.some.injEq, Prod.mk.injEq] at h
    obtain ⟨rfl, rfl⟩ := h
    exact ⟨hlen, rfl, fun k => Or.inl ⟨rfl, fun j hj => absurd hj (Nat.not_lt_zero j)⟩⟩
  | cons nd rest ih =>
    intro i parents cores ps hlen h
    unfold fixupNodesLoop at h
    cases hch : fixupChildrenLoop n i parents nd.children with
    | none => simp only [hch] at h; exact Option.noConfusion h
    | some pr1 =>
      obtain ⟨cidxs, parents1⟩ := pr1
      simp only [hch] at h
      cases hmsh : cgltf_ptrfixup nd.mesh mc with
      | none => simp only [hmsh] at h; exact Option.noConfusion h
      | some msh =>
        simp only [hmsh] at h
        cases hsk : cgltf_ptrfixup nd.skin sc with
        | none => simp only [hsk] at h; exact Option.noConfusion h
        | some sk =>
          simp only [hsk] at h
          cases hcam : cgltf_ptrfixup nd.camera cc with
          | none => simp only [hcam] at h; exact Option.noConfusion h
          | some cam =>
            simp only [hcam] at h
            cases hlt : cgltf_ptrfixup nd.light lc with
            | none => simp only [hlt] at h; exact Option.noConfusion h
            | some lt =>
              simp only [hlt] at h
              cases hrec : fixupNodesLoop n mc sc cc lc rest (i + 1) parents1 with
              | none => simp only [hrec] at h; exact Option.noConfusion h
              | some pr2 =>
                obtain ⟨cores', ps'⟩ := pr2
                simp only [hrec, Option.some.injEq, Prod.mk.injEq] at h
                obtain ⟨rfl, rfl⟩ := h
                obtain ⟨hlen1, hunch, hmemc⟩ :=
                  fixupChildrenLoop_spec n i nd.children parents cidxs parents1 hlen hch
                obtain ⟨ihlen, ihclen, ihinv⟩ := ih (i + 1) parents1 cores' ps' hlen1 hrec
                refine ⟨ihlen, by simp [ihclen], ?_⟩
                intro k
                by_cases hk : k ∈ cidxs
                · obtain ⟨hklt, hkpar, hkps1, hkcnt⟩ := hmemc k hk
                  rcases ihinv k with ⟨heq, hnone⟩ | ⟨_, hnone1, _⟩
                  · refine Or.inr ⟨hklt, hkpar, 0, by simp, ?_, ?_, ?_⟩
                    · rw [heq, hkps1]; simp
                    · simpa using hkcnt
                    · intro j2 hj2 hj2ne
                      cases j2 with
                      | zero => exact absurd rfl hj2ne
                      | succ m =>
                        have hm : m < cores'.length := by simpa using hj2
                        simpa using hnone m hm
                  · rw [hkps1] at hnone1; cases hnone1
                · have hkeq : parents1.getD k none = parents.getD k none := hunch k hk
                  rcases ihinv k with ⟨heq, hnone⟩ |
                    ⟨hklt, hnone1, j, hjlt, hpsk, hcnt, hothers⟩
                  · refine Or.inl ⟨by rw [heq, hkeq], ?_⟩
                    intro j hj
                    cases j with
                    | zero => simpa using hk
                    | succ m =>
                      have hm : m < cores'.length := by simpa using hj
                      simpa using hnone m hm
                  · refine Or.inr ⟨hklt, by rw [← hkeq]; exact hnone1, j + 1,
                      by simpa using hjlt, ?_, ?_, ?_⟩
                    · rw [hpsk]; congr 1; omega
                    · simpa using hcnt
                    · intro j2 hj2 hj2ne
                      cases j2 with
                      | zero => simpa using hk
                      | succ m =>
                        have hm : m < cores'.length := by simpa using hj2
                        have hne : m ≠ j := fun hh => hj2ne (by rw [hh])
                        simpa using hothers m hm hne

/-- Every element of a successful traversal result comes from some input
element. -/
theorem optMapM_mem {α β : Type} (f : α → Option β) :
    ∀ (l : List α) (ys : List β), optMapM f l = some ys →
      ∀ y ∈ ys, ∃ x ∈ l, f x = some y := by
  intro l
  induction l with
  | nil =>
    intro ys h y hy
    unfold optMapM at h
    injection h with h
    subst h
    cases hy
  | cons a as ih =>
    intro ys h y hy
    unfold optMapM at h
    cases hfa : f a with
    | none => rw [hfa] at h; cases h
    | some b =>
      simp only [hfa] at h
      cases hrest : optMapM f as with
      | none => simp only [hrest] at h; exact Option.noConfusion h
      | some bs =>
        simp only [hrest, Option.some.injEq] at h
        subst h
        rcases List.mem_cons.1 hy with rfl | hy'
        · exact ⟨a, List.mem_cons_self a as, hfa⟩
        · obtain ⟨x, hx, hfx⟩ := ih bs hrest y hy'
          exact ⟨x, List.mem_cons_of_mem a hx, hfx⟩

/-- Every resolved root of a successfully fixed-up scene had no parent. -/
theorem fixupScene_parent_none (nc : Nat) (parents : List (Option Nat))
    (s : PreScene) (ps : PostScene) (h : fixupScene nc parents s = some ps) :
    ∀ k ∈ ps.nodes, parents.getD k none = none := by
  intro k hk
  unfold fixupScene at h
  cases hm : optMapM (fun v =>
      match cgltf_ptrfixup_req v nc with
      | none => none
      | some idx =>
        match parents.getD idx none with
        | some _ => none
        | none => some idx) s.nodes with
  | none => rw [hm] at h; cases h
  | some idxs =>
    simp only [hm, Option.some.injEq] at h
    subst h
    obtain ⟨x, _, hfx⟩ := optMapM_mem _ s.nodes idxs hm k hk
    cases hreq : cgltf_ptrfixup_req x nc with
    | none => rw [hreq] at hfx; cases hfx
    | some idx =>
      simp only [hreq] at hfx
      cases hpar : parents.getD idx none with
      | some p => simp only [hpar] at hfx; exact Option.noConfusion hfx
      | none =>
        simp only [hpar, Option.some.injEq] at hfx
        subst hfx
        exact hpar

/-- An index hit in a list is in range and agrees with getD. -/
theorem listGetD_of_get? {α : Type} [Inhabited α] :
    ∀ (l : List α) (j : Nat) (c : α), l.get? j = some c →
      j < l.length ∧ l.getD j default = c := by
  intro l
  induction l with
  | nil => intro j c h; cases h
  | cons a as ih =>
    intro j c h
    cases j with
    | zero =>
      rw [List.get?_cons_zero] at h
      injection h with h
      subst h
      exact ⟨Nat.succ_pos _, rfl⟩
    | succ m =>
      rw [List.get?_cons_succ] at h
      obtain ⟨h1, h2⟩ := ih m c h
      exact ⟨Nat.succ_lt_succ h1, h2⟩

/-- An in-range index yields its getD value through get?. -/
theorem listGet?_of_lt {α : Type} [Inhabited α] :
    ∀ (l : List α) (j : Nat), j < l.length →
      l.get? j = some (l.getD j default) := by
  intro l
  induction l with
  | nil => intro j h; simp at h
  | cons a as ih =>
    intro j h
    cases j with
    | zero => rfl
    | succ m => exact ih m (by simpa using h)

/-- Claim C7: the fixup enforces the scene-forest invariant.  While
visiting node children it sets the parent of each resolved child to the
visiting node, erroring when a parent is already set; while visiting scene
roots it checks that the parent is unset.  Hence after a successful fixup
of a decoded document (all parent fields null, as the decoder
zero-initialises them): every node is listed as a child by at most one
node, and at most once by that node; a node listed as a child is a root of
no scene; and the parent field of a node holds i exactly when node i lists
it as a child (so it was assigned at most once). -/
theorem C7_scene_forest (d : PreData) (post : PostData)
    (h0 : ∀ nd ∈ d.nodes, nd.parent = none)
    (hfix : cgltf_fixup_pointers d = some post) :
    ∀ k : Nat,
      (∀ j1 j2 c1 c2, post.nodes.get? j1 = some c1 → post.nodes.get? j2 = some c2 →
        k ∈ c1.children → k ∈ c2.children → j1 = j2 ∧ c1.children.count k = 1)
      ∧ ((∃ j c, post.nodes.get? j = some c ∧ k ∈ c.children) →
          ∀ s ∈ post.scenes, k ∉ s.nodes)
      ∧ (∀ i, post.node_parents.getD k none = some i ↔
          ∃ c, post.nodes.get? i = some c ∧ k ∈ c.children) := by
  simp only [cgltf_fixup_pointers] at hfix
  split at hfix
  · exact absurd hfix (fun hh => Option.noConfusion hh)
  split at hfix
  · exact absurd hfix (fun hh => Option.noConfusion hh)
  split at hfix
  · exact absurd hfix (fun hh => Option.noConfusion hh)
  split at hfix
  · exact absurd hfix (fun hh => Option.noConfusion hh)
  split at hfix
  · exact absurd hfix (fun hh => Option.noConfusion hh)
  split at hfix
  · exact absurd hfix (fun hh => Option.noConfusion hh)
  split at hfix
  · exact absurd hfix (fun hh => Option.noConfusion hh)
  split at hfix
  · exact absurd hfix (fun hh => Option.noConfusion hh)
  rename_i nodesL pfin hnodes
  split at hfix
  · exact absurd hfix (fun hh => Option.noConfusion hh)
  rename_i scenesL hscenes
  split at hfix
  · exact absurd hfix (fun hh => Option.noConfusion hh)
  split at hfix
  · exact absurd hfix (fun hh => Option.noConfusion hh)
  injection hfix with hfix
  subst hfix
  dsimp only
  have hlen0 : (d.nodes.map PreNode.parent).length = d.nodes.length :=
    List.length_map _ _
  have hpar0 : ∀ k, (d.nodes.map PreNode.parent).getD k none = none := by
    intro k
    by_cases hk : k < d.nodes.length
    · have hk2 : k < (d.nodes.map PreNode.parent).length := by simpa using hk
      rw [List.getD_eq_getElem _ _ hk2, List.getElem_map]
      exact h0 _ (List.getElem_mem _)
    · exact List.getD_eq_default _ _ (by simpa using Nat.le_of_not_lt hk)
  obtain ⟨hpslen, hcorelen, hinv⟩ :=
    fixupNodesLoop_spec d.nodes.length d.meshes.length d.skins.length
      d.cameras_count d.lights_count d.nodes 0 (d.nodes.map PreNode.parent)
      nodesL pfin hlen0 hnodes
  intro k
  have hchild_imp : (∃ j c, nodesL.get? j = some c ∧ k ∈ c.children) →
      k < d.nodes.length ∧ ∃ j, j < nodesL.length ∧
        pfin.getD k none = some j ∧
        (nodesL.getD j default).children.count k = 1 ∧
        ∀ j2, j2 < nodesL.length → j2 ≠ j →
          k ∉ (nodesL.getD j2 default).children := by
    rintro ⟨j, c, hjc, hkc⟩
    obtain ⟨hjlt, hjg⟩ := listGetD_of_get? nodesL j c hjc
    rcases hinv k with ⟨-, hnone⟩ | ⟨hklt, -, j', hj'lt, hps, hcnt, hothers⟩
    · exact absurd hkc (hjg ▸ hnone j hjlt)
    · refine ⟨hklt, j', hj'lt, by simpa using hps, hcnt, hothers⟩
  refine ⟨?_, ?_, ?_⟩
  · intro j1 j2 c1 c2 h1 h2 hk1 hk2
    obtain ⟨hj1, hg1⟩ := listGetD_of_get? nodesL j1 c1 h1
    obtain ⟨hj2, hg2⟩ := listGetD_of_get? nodesL j2 c2 h2
    obtain ⟨-, j, hjlt, -, hcnt, hothers⟩ := hchild_imp ⟨j1, c1, h1, hk1⟩
    have e1 : j1 = j := by
      by_contra hne
      exact (hothers j1 hj1 hne) (hg1 ▸ hk1)
    have e2 : j2 = j := by
      by_contra hne
      exact (hothers j2 hj2 hne) (hg2 ▸ hk2)
    refine ⟨e1.trans e2.symm, ?_⟩
    rw [← hg1, e1]
    exact hcnt
  · intro hex s hs hks
    obtain ⟨-, j, -, hps, -, -⟩ := hchild_imp hex
    obtain ⟨x, -, hfx⟩ := optMapM_mem _ d.scenes scenesL hscenes s hs
    have := fixupScene_parent_none d.nodes.length pfin x s hfx k hks
    rw [hps] at this
    cases this
  · intro i
    constructor
    · intro hpk
      rcases hinv k with ⟨hsame, -⟩ | ⟨-, -, j, hjlt, hps, hcnt, -⟩
      · rw [hsame, hpar0 k] at hpk
        cases hpk
      · have hij : i = j := by
          rw [hps] at hpk
          injection hpk with hh
          omega
        refine ⟨nodesL.getD j default, ?_, ?_⟩
        · rw [hij]
          exact listGet?_of_lt nodesL j hjlt
        · have : 0 < (nodesL.getD j default).children.count k := by omega
          exact List.count_pos_iff.1 this
    · intro hex
      obtain ⟨c, hic, hkc⟩ := hex
      obtain ⟨-, j, -, hps, -, hothers⟩ := hchild_imp ⟨i, c, hic, hkc⟩
      obtain ⟨hi, hg⟩ := listGetD_of_get? nodesL i c hic
      have hij : i = j := by
        by_contra hne
        exact (hothers i hi hne) (hg ▸ hkc)
      rw [hps, hij]

/-- Witness for C7: in a two-node document where node 0 lists node 1 as
its only child and the single scene roots node 0, the fixed-up parent
field of node 1 points at node 0, and the theorem recovers the listing
node from it. -/
theorem C7_witness :
    ∃ c : PostNodeCore,
      (PostData.mk [] [] [] [] [] [] []
        [⟨[1], none, none, none, none⟩, ⟨[], none, none, none, none⟩]
        [none, some 0] [⟨[0]⟩] [] none).nodes.get? 0 = some c ∧
      (1 : Nat) ∈ c.children :=
  ((C7_scene_forest
    ⟨[], [], [], [], [], [], [], [⟨[2], 0, 0, 0, 0, none⟩,
      ⟨[], 0, 0, 0, 0, none⟩], [⟨[1]⟩], [], 0, 0, 0, 0, 0⟩
    (PostData.mk [] [] [] [] [] [] []
      [⟨[1], none, none, none, none⟩, ⟨[], none, none, none, none⟩]
      [none, some 0] [⟨[0]⟩] [] none)
    (by decide) (by decide) 1).2.2 0).1 (by decide)

/-- The counting pass only ever increments its running count. -/
theorem jsmnCountLoop_le (js : Array Nat) (len : Nat) :
    ∀ (fuel pos cnt n : Nat),
      jsmnCountLoop js len fuel pos cnt = .ok n → cnt ≤ n := by
  intro fuel
  induction fuel with
  | zero => intro pos cnt n h; simp [jsmnCountLoop] at h
  | succ f ih =>
    intro pos cnt n h
    unfold jsmnCountLoop at h
    by_cases hlive : pos < len ∧ js.getD pos 0 ≠ 0
    · rw [if_pos hlive] at h
      cases hcc : jsmnCC (js.getD pos 0) with
      | openBrace =>
        simp only [hcc] at h
        exact Nat.le_of_succ_le (ih (pos + 1) (cnt + 1) n h)
      | openBracket =>
        simp only [hcc] at h
        exact Nat.le_of_succ_le (ih (pos + 1) (cnt + 1) n h)
      | closeBrace =>
        simp only [hcc] at h
        exact ih (pos + 1) cnt n h
      | closeBracket =>
        simp only [hcc] at h
        exact ih (pos + 1) cnt n h
      | quote =>
        simp only [hcc] at h
        cases hscan : jsmnStringScan js len f (pos + 1) with
        | error e => rw [hscan] at h; exact Except.noConfusion h
        | ok p =>
          rw [hscan] at h
          exact Nat.le_of_succ_le (ih (p + 1) (cnt + 1) n h)
      | ws =>
        simp only [hcc] at h
        exact ih (pos + 1) cnt n h
      | colon =>
        simp only [hcc] at h
        exact ih (pos + 1) cnt n h
      | comma =>
        simp only [hcc] at h
        exact ih (pos + 1) cnt n h
      | other =>
        simp only [hcc] at h
        cases hscan : jsmnPrimScan js len f pos with
        | error e => rw [hscan] at h; exact Except.noConfusion h
        | ok p =>
          rw [hscan] at h
          exact Nat.le_of_succ_le (ih (p + 1) (cnt + 1) n h)
    · rw [if_neg hlive] at h
      injection h with h
      omega

/-- The closing-bracket walk never reports out-of-token-capacity. -/
theorem jsmnCloseWalk_no_nomem (tt : JsmnType) (pos : Nat) (tsuper : Int) :
    ∀ (fuel : Nat) (toks : Array JsmnTok) (i : Nat),
      jsmnCloseWalk tt pos tsuper fuel toks i ≠ .error .nomem := by
  intro fuel
  induction fuel with
  | zero =>
    intro toks i h
    unfold jsmnCloseWalk at h
    injection h with h
    cases h
  | succ f ih =>
    intro toks i h
    unfold jsmnCloseWalk at h
    by_cases h1 : (toks.getD i default).tstart ≠ -1 ∧ (toks.getD i default).tend = -1
    · rw [if_pos h1] at h
      by_cases h2 : (toks.getD i default).ty ≠ tt
      · rw [if_pos h2] at h
        injection h with h
        cases h
      · rw [if_neg h2] at h
        exact Except.noConfusion h
    · rw [if_neg h1] at h
      by_cases h3 : (toks.getD i default).parent = -1
      · rw [if_pos h3] at h
        by_cases h4 : (toks.getD i default).ty ≠ tt ∨ tsuper = -1
        · rw [if_pos h4] at h
          injection h with h
          cases h
        · rw [if_neg h4] at h
          exact Except.noConfusion h
      · rw [if_neg h3] at h
        exact ih toks (toks.getD i default).parent.toNat h

/-- Simulation, capacity half: when the counting pass accepts an input
with final count n and the filling pass runs with at least n slots (and
has so far allocated exactly the counted tokens), it never reports
out-of-token-capacity: both passes visit the same byte positions and
allocate one token per counted event. -/
theorem jsmnFill_no_nomem (js : Array Nat) (len N : Nat) :
    ∀ (fuel pos cnt n : Nat) (st : JsmnState),
      jsmnCountLoop js len fuel pos cnt = .ok n →
      st.toknext = cnt → n ≤ N →
      jsmnFillLoop js len N fuel pos st ≠ .error .nomem := by
  intro fuel
  induction fuel with
  | zero =>
    intro pos cnt n st hcount _ _ hfill
    simp [jsmnCountLoop] at hcount
  | succ f ih =>
    intro pos cnt n st hcount htok hN hfill
    unfold jsmnCountLoop at hcount
    unfold jsmnFillLoop at hfill
    by_cases hlive : pos < len ∧ js.getD pos 0 ≠ 0
    · rw [if_pos hlive] at hcount hfill
      cases hcc : jsmnCC (js.getD pos 0) with
      | openBrace =>
        simp only [hcc] at hcount hfill
        have hle := jsmnCountLoop_le js len f (pos + 1) (cnt + 1) n hcount
        rw [if_neg (by omega)] at hfill
        exact ih (pos + 1) (cnt + 1) n _ hcount (by simp [htok]) hN hfill
      | openBracket =>
        simp only [hcc] at hcount hfill
        have hle := jsmnCountLoop_le js len f (pos + 1) (cnt + 1) n hcount
        rw [if_neg (by omega)] at hfill
        exact ih (pos + 1) (cnt + 1) n _ hcount (by simp [htok]) hN hfill
      | closeBrace =>
        simp only [hcc] at hcount hfill
        by_cases htk : st.toknext < 1
        · rw [if_pos htk] at hfill
          injection hfill with hfill
          cases hfill
        · rw [if_neg htk] at hfill
          cases hcw : jsmnCloseWalk .object pos st.toksuper st.toknext st.tokens
              (st.toknext - 1) with
          | error e =>
            simp only [hcw] at hfill
            injection hfill with hfill
            subst hfill
            exact jsmnCloseWalk_no_nomem .object pos st.toksuper st.toknext
              st.tokens (st.toknext - 1) hcw
          | ok pr =>
            obtain ⟨toks', tsuper'⟩ := pr
            simp only [hcw] at hfill
            exact ih (pos + 1) cnt n ⟨st.toknext, tsuper', toks', st.cnt⟩
              hcount htok hN hfill
      | closeBracket =>
        simp only [hcc] at hcount hfill
        by_cases htk : st.toknext < 1
        · rw [if_pos htk] at hfill
          injection hfill with hfill
          cases hfill
        · rw [if_neg htk] at hfill
          cases hcw : jsmnCloseWalk .array pos st.toksuper st.toknext st.tokens
              (st.toknext - 1) with
          | error e =>
            simp only [hcw] at hfill
            injection hfill with hfill
            subst hfill
            exact jsmnCloseWalk_no_nomem .array pos st.toksuper st.toknext
              st.tokens (st.toknext - 1) hcw
          | ok pr =>
            obtain ⟨toks', tsuper'⟩ := pr
            simp only [hcw] at hfill
            exact ih (pos + 1) cnt n ⟨st.toknext, tsuper', toks', st.cnt⟩
              hcount htok hN hfill
      | quote =>
        simp only [hcc] at hcount hfill
        cases hscan : jsmnStringScan js len f (pos + 1) with
        | error e =>
          rw [hscan] at hcount
          exact Except.noConfusion hcount
        | ok p =>
          rw [hscan] at hcount
          simp only [hscan] at hfill
          have hle := jsmnCountLoop_le js len f (p + 1) (cnt + 1) n hcount
          rw [if_neg (by omega)] at hfill
          exact ih (p + 1) (cnt + 1) n _ hcount (by simp [htok]) hN hfill
      | ws =>
        simp only [hcc] at hcount hfill
        exact ih (pos + 1) cnt n _ hcount htok hN hfill
      | colon =>
        simp only [hcc] at hcount hfill
        exact ih (pos + 1) cnt n
          ⟨st.toknext, (st.toknext : Int) - 1, st.tokens, st.cnt⟩
          hcount htok hN hfill
      | comma =>
        simp only [hcc] at hcount hfill
        refine ih (pos + 1) cnt n _ hcount ?_ hN hfill
        by_cases hc : st.toksuper ≠ -1 ∧
            (st.tokens.getD st.toksuper.toNat default).ty ≠ .array ∧
            (st.tokens.getD st.toksuper.toNat default).ty ≠ .object
        · rw [if_pos hc]
          exact htok
        · rw [if_neg hc]
          exact htok
      | other =>
        simp only [hcc] at hcount hfill
        cases hscan : jsmnPrimScan js len f pos with
        | error e =>
          rw [hscan] at hcount
          exact Except.noConfusion hcount
        | ok p =>
          rw [hscan] at hcount
          simp only [hscan] at hfill
          have hle := jsmnCountLoop_le js len f (p + 1) (cnt + 1) n hcount
          rw [if_neg (by omega)] at hfill
          exact ih (p + 1) (cnt + 1) n _ hcount (by simp [htok]) hN hfill
    · rw [if_neg hlive] at hcount hfill
      by_cases hum : (List.range st.toknext).any (fun i =>
          (st.tokens.getD i default).tstart ≠ -1 ∧
          (st.tokens.getD i default).tend = -1)
      · rw [if_pos hum] at hfill
        injection hfill with hfill
        cases hfill
      · rw [if_neg hum] at hfill
        exact Except.noConfusion hfill

/-- Simulation, count half: when both passes accept, the filling pass
returns exactly the count of the counting pass (both count the same
events at the same byte positions). -/
theorem jsmnFill_count_eq (js : Array Nat) (len N : Nat) :
    ∀ (fuel pos cnt n : Nat) (st : JsmnState) (m : Nat) (toks : Array JsmnTok),
      jsmnCountLoop js len fuel pos cnt = .ok n →
      st.cnt = cnt →
      jsmnFillLoop js len N fuel pos st = .ok (m, toks) → m = n := by
  intro fuel
  induction fuel with
  | zero =>
    intro pos cnt n st m toks hcount _ _
    simp [jsmnCountLoop] at hcount
  | succ f ih =>
    intro pos cnt n st m toks hcount hcnt hfill
    unfold jsmnCountLoop at hcount
    unfold jsmnFillLoop at hfill
    by_cases hlive : pos < len ∧ js.getD pos 0 ≠ 0
    · rw [if_pos hlive] at hcount hfill
      cases hcc : jsmnCC (js.getD pos 0) with
      | openBrace =>
        simp only [hcc] at hcount hfill
        by_cases halloc : st.toknext ≥ N
        · rw [if_pos halloc] at hfill
          exact Except.noConfusion hfill
        · rw [if_neg halloc] at hfill
          exact ih (pos + 1) (cnt + 1) n _ m toks hcount (by simp [hcnt]) hfill
      | openBracket =>
        simp only [hcc] at hcount hfill
        by_cases halloc : st.toknext ≥ N
        · rw [if_pos halloc] at hfill
          exact Except.noConfusion hfill
        · rw [if_neg halloc] at hfill
          exact ih (pos + 1) (cnt + 1) n _ m toks hcount (by simp [hcnt]) hfill
      | closeBrace =>
        simp only [hcc] at hcount hfill
        by_cases htk : st.toknext < 1
        · rw [if_pos htk] at hfill
          exact Except.noConfusion hfill
        · rw [if_neg htk] at hfill
          cases hcw : jsmnCloseWalk .object pos st.toksuper st.toknext st.tokens
              (st.toknext - 1) with
          | error e =>
            simp only [hcw] at hfill
            exact Except.noConfusion hfill
          | ok pr =>
            obtain ⟨toks', tsuper'⟩ := pr
            simp only [hcw] at hfill
            exact ih (pos + 1) cnt n ⟨st.toknext, tsuper', toks', st.cnt⟩ m toks
              hcount hcnt hfill
      | closeBracket =>
        simp only [hcc] at hcount hfill
        by_cases htk : st.toknext < 1
        · rw [if_pos htk] at hfill
          exact Except.noConfusion hfill
        · rw [if_neg htk] at hfill
          cases hcw : jsmnCloseWalk .array pos st.toksuper st.toknext st.tokens
              (st.toknext - 1) with
          | error e =>
            simp only [hcw] at hfill
            exact Except.noConfusion hfill
          | ok pr =>
            obtain ⟨toks', tsuper'⟩ := pr
            simp only [hcw] at hfill
            exact ih (pos + 1) cnt n ⟨st.toknext, tsuper', toks', st.cnt⟩ m toks
              hcount hcnt hfill
      | quote =>
        simp only [hcc] at hcount hfill
        cases hscan : jsmnStringScan js len f (pos + 1) with
        | error e =>
          rw [hscan] at hcount
          exact Except.noConfusion hcount
        | ok p =>
          rw [hscan] at hcount
          simp only [hscan] at hfill
          by_cases halloc : st.toknext ≥ N
          · rw [if_pos halloc] at hfill
            exact Except.noConfusion hfill
          · rw [if_neg halloc] at hfill
            exact ih (p + 1) (cnt + 1) n _ m toks hcount (by simp [hcnt]) hfill
      | ws =>
        simp only [hcc] at hcount hfill
        exact ih (pos + 1) cnt n st m toks hcount hcnt hfill
      | colon =>
        simp only [hcc] at hcount hfill
        exact ih (pos + 1) cnt n
          ⟨st.toknext, (st.toknext : Int) - 1, st.tokens, st.cnt⟩ m toks
          hcount hcnt hfill
      | comma =>
        simp only [hcc] at hcount hfill
        refine ih (pos + 1) cnt n _ m toks hcount ?_ hfill
        by_cases hc : st.toksuper ≠ -1 ∧
            (st.tokens.getD st.toksuper.toNat default).ty ≠ .array ∧
            (st.tokens.getD st.toksuper.toNat default).ty ≠ .object
        · rw [if_pos hc]
          exact hcnt
        · rw [if_neg hc]
          exact hcnt
      | other =>
        simp only [hcc] at hcount hfill
        cases hscan : jsmnPrimScan js len f pos with
        | error e =>
          rw [hscan] at hcount
          exact Except.noConfusion hcount
        | ok p =>
          rw [hscan] at hcount
          simp only [hscan] at hfill
          by_cases halloc : st.toknext ≥ N
          · rw [if_pos halloc] at hfill
            exact Except.noConfusion hfill
          · rw [if_neg halloc] at hfill
            exact ih (p + 1) (cnt + 1) n _ m toks hcount (by simp [hcnt]) hfill
    · rw [if_neg hlive] at hcount hfill
      injection hcount with hcount
      by_cases hum : (List.range st.toknext).any (fun i =>
          (st.tokens.getD i default).tstart ≠ -1 ∧
          (st.tokens.getD i default).tend = -1)
      · rw [if_pos hum] at hfill
        exact Except.noConfusion hfill
      · rw [if_neg hum] at hfill
        injection hfill with hfill
        rw [← hcount, ← hcnt]
        exact ((Prod.mk.injEq _ _ _ _ ▸ hfill).1).symm

/-- Claim C9: running the tokeniser in counting mode (null token array)
and then in filling mode over the same bytes with an array of exactly the
counted size is safe and consistent: the filling pass never reports
out-of-token-capacity, and whenever it completes it returns the same token
count as the counting pass, so the exact-size allocation of
cgltf_parse_json never overflows. -/
theorem C9_two_pass_token_count (js : Array Nat) (n : Nat)
    (h : jsmn_parse_count js = .ok n) :
    jsmn_parse_fill js n ≠ .error .nomem ∧
    ∀ m toks, jsmn_parse_fill js n = .ok (m, toks) → m = n := by
  constructor
  · exact jsmnFill_no_nomem js js.size n (js.size + 1) 0 0 n
      ⟨0, -1, Array.mkArray n default, 0⟩ h rfl (Nat.le_refl n)
  · intro m toks hf
    exact jsmnFill_count_eq js js.size n (js.size + 1) 0 0 n
      ⟨0, -1, Array.mkArray n default, 0⟩ m toks h rfl hf

/-- Witness for C9: on the two-byte object the counting pass returns 1 and
the filling pass with one slot neither overflows nor miscounts. -/
theorem C9_witness :
    jsmn_parse_count #[123, 125] = .ok 1 ∧
    jsmn_parse_fill #[123, 125] 1 ≠ .error .nomem :=
  ⟨by decide, (C9_two_pass_token_count #[123, 125] 1 (by decide)).1⟩
